import Mathlib

/-!
Verification of the polaris-lite staged multi-reviewer orchestration core
(`src/backend/agents.py`, `src/backend/prompts.py`, `src/backend/app.py`).

The Python code is shallowly embedded: Python strings are Lean `String`s
(manipulated through their underlying `List Char`), Python dicts holding JSON
values become an ordered association list inside an inductive `Json` type,
and the request pipeline (which suspends on calls to the Gemini collaborator)
is embedded as a deterministic program over an oracle
`gen : prompt → system_instruction → response` together with an explicit
trace of collaborator calls and streamed events.  RAG mode is disabled by
default (`rag._rag_enabled = False`), so the fast `agents.py` implementations
are the ones embedded.
-/

namespace Polaris

/-! ## Python string primitives (over `List Char`) -/

/-- ASCII whitespace recognized by Python's `str.strip` / `\s` (string inputs
here are ASCII; the Unicode extension is irrelevant to this code base). -/
def pySpace (c : Char) : Bool :=
  c = ' ' || c = '\t' || c = '\n' || c = '\r' || c = '\x0b' || c = '\x0c'

/-- `list.isPrefixOf`, spelled out for `Char`. -/
def lPrefix : List Char → List Char → Bool
  | [], _ => true
  | _ :: _, [] => false
  | a :: as, b :: bs => a = b && lPrefix as bs

/-- Python's substring test `needle in hay`. -/
def lIn (needle : List Char) : List Char → Bool
  | [] => needle.isEmpty
  | c :: rest => lPrefix needle (c :: rest) || lIn needle rest

/-- Python `str.strip()` (both ends). -/
def lStrip (s : List Char) : List Char :=
  ((s.dropWhile pySpace).reverse.dropWhile pySpace).reverse

/-- Python `str.lower()` (ASCII). -/
def lLower (s : List Char) : List Char := s.map Char.toLower

/-- Python `str.upper()` (ASCII). -/
def lUpper (s : List Char) : List Char := s.map Char.toUpper

/-- String-level wrappers. -/
def pyIn (needle hay : String) : Bool := lIn needle.data hay.data

def pyStrip (s : String) : String := ⟨lStrip s.data⟩

def pyLower (s : String) : String := ⟨lLower s.data⟩

def pyUpper (s : String) : String := ⟨lUpper s.data⟩

def pyStartsWith (pre s : String) : Bool := lPrefix pre.data s.data

/-- Python's `"\n".join` over already-rendered lines. -/
def pyJoin (sep : String) : List String → String
  | [] => ""
  | [x] => x
  | x :: y :: rest => x ++ sep ++ pyJoin sep (y :: rest)

/-- Python's negative-start slice `l[-n:]`: the last `n` elements
(the whole list when it is shorter than `n`). -/
def pyLastSlice (n : Nat) (l : List α) : List α := l.drop (l.length - n)

/-! ## JSON values (Python `json.loads` result shape)

Objects keep Python-dict insertion order; duplicate keys in the source text
follow Python semantics (value of the last occurrence, position of the
first). -/

inductive Json where
  | null : Json
  | bool : Bool → Json
  /-- A JSON number, kept as its source lexeme (the claims never compare
  numerically distinct lexemes). -/
  | num : String → Json
  | str : String → Json
  | arr : List Json → Json
  | obj : List (String × Json) → Json

/-- Python `d[k] = v` on an insertion-ordered dict: update in place if the
key exists, else append. -/
def dictSet (l : List (String × Json)) (k : String) (v : Json) :
    List (String × Json) :=
  if l.any (fun p => p.1 == k) then
    l.map (fun p => if p.1 == k then (k, v) else p)
  else l ++ [(k, v)]

/-- Python `d.get(k)` (first = only occurrence after `dictSet` dedup). -/
def dictGet (l : List (String × Json)) (k : String) : Option Json :=
  match l.find? (fun p => p.1 == k) with
  | some p => some p.2
  | none => none

/-- Python `result.get(k)` on a parsed JSON value (the pipeline only calls it
on dicts). -/
def jGet (j : Json) (k : String) : Option Json :=
  match j with
  | .obj l => dictGet l k
  | _ => none

/-- Python `result.get(k, d)`. -/
def jGetD (j : Json) (k : String) (d : Json) : Json := (jGet j k).getD d

/-- Python item assignment `j[k] = v`; `none` models the `TypeError` raised
when `j` is not a dict. -/
def jSet (j : Json) (k : String) (v : Json) : Option Json :=
  match j with
  | .obj l => some (.obj (dictSet l k v))
  | _ => none

/-- Python truthiness of a JSON value (`if result.get("suggestion"):`). -/
def jTruthy : Json → Bool
  | .null => false
  | .bool b => b
  | .str s => !s.isEmpty
  | .num l =>
      -- a JSON number is falsy iff it denotes zero; NaN/Infinity are truthy
      if l = "NaN" || l = "Infinity" || l = "-Infinity" then true
      else !(((l.data.takeWhile (fun c => c ≠ 'e' ∧ c ≠ 'E')).filter
               Char.isDigit).all (· = '0'))
  | .arr xs => !xs.isEmpty
  | .obj l => !l.isEmpty

/-- Truthiness of `d.get(k)` (missing key → `None` → falsy). -/
def jTruthyOpt : Option Json → Bool
  | none => false
  | some v => jTruthy v

/-- Python `result.get("status") == "SAFE"`: `==` against a `str` is `False`
for any non-`str` value (and for a missing key, i.e. `None`). -/
def statusIsSafe (r : Json) : Bool :=
  match jGet r "status" with
  | some (.str s) => s == "SAFE"
  | _ => false

/-- Whether a decoded value is a Python dict. -/
def Json.isObj : Json → Bool
  | .obj _ => true
  | _ => false

/-! ## `json.loads`

A recursive-descent embedding of CPython's `json` decoder (strict mode,
default hooks): the four JSON whitespace characters are skipped between
tokens, objects/arrays/strings/numbers and the literals `true`, `false`,
`null`, `NaN`, `Infinity`, `-Infinity` are accepted, control characters
inside strings are rejected, and trailing non-whitespace is "Extra data".
Container recursion runs on an explicit fuel (instantiated to more than the
input length, which bounds the recursion depth). -/

def jsonWsChar (c : Char) : Bool := c = ' ' || c = '\t' || c = '\n' || c = '\r'

def hexVal (c : Char) : Option Nat :=
  if '0' ≤ c ∧ c ≤ '9' then some (c.toNat - '0'.toNat)
  else if 'a' ≤ c ∧ c ≤ 'f' then some (c.toNat - 'a'.toNat + 10)
  else if 'A' ≤ c ∧ c ≤ 'F' then some (c.toNat - 'A'.toNat + 10)
  else none

def escChar (c : Char) : Option Char :=
  match c with
  | '"' => some '"'
  | '\\' => some '\\'
  | '/' => some '/'
  | 'b' => some '\x08'
  | 'f' => some '\x0c'
  | 'n' => some '\n'
  | 'r' => some '\r'
  | 't' => some '\t'
  | _ => none

/-- Scan a JSON string body (opening quote already consumed); returns the
decoded content and the input after the closing quote.  A `\uXXXX` escape
denoting a lone surrogate falls back on `Char.ofNat`'s default; no claim
exercises surrogates. -/
def scanStr : List Char → Except String (List Char × List Char)
  | [] => .error "Unterminated string"
  | c :: rest =>
      if c = '"' then .ok ([], rest)
      else if c = '\\' then
        match rest with
        | 'u' :: h1 :: h2 :: h3 :: h4 :: rest2 =>
            (match hexVal h1, hexVal h2, hexVal h3, hexVal h4 with
             | some a, some b, some c', some d =>
                 (scanStr rest2).map
                   (fun p => (Char.ofNat (((a * 16 + b) * 16 + c') * 16 + d) :: p.1, p.2))
             | _, _, _, _ => .error "Invalid \\uXXXX escape")
        | e :: rest2 =>
            (match escChar e with
             | some c' => (scanStr rest2).map (fun p => (c' :: p.1, p.2))
             | none => .error "Invalid \\escape")
        | [] => .error "Unterminated string"
      else if c.toNat < 0x20 then .error "Invalid control character"
      else (scanStr rest).map (fun p => (c :: p.1, p.2))

/-- Scan a JSON number at the head of the input per CPython's `NUMBER_RE`
(`-?(0|[1-9]\d*)(\.\d+)?([eE][+-]?\d+)?`), returning its lexeme. -/
def scanNum (cs : List Char) : Except String (List Char × List Char) :=
  let (sign, cs1) :=
    match cs with
    | '-' :: rest => (['-'], rest)
    | _ => (([] : List Char), cs)
  match cs1 with
  | c :: rest =>
      if c = '0' ∨ (c.isDigit ∧ c ≠ '0') then
        let (intTail, cs2) :=
          if c = '0' then (([] : List Char), rest)
          else (rest.takeWhile Char.isDigit, rest.dropWhile Char.isDigit)
        let (frac, cs3) :=
          match cs2 with
          | '.' :: d :: fr =>
              if d.isDigit then
                ('.' :: d :: fr.takeWhile Char.isDigit, fr.dropWhile Char.isDigit)
              else (([] : List Char), cs2)
          | _ => (([] : List Char), cs2)
        let (expPart, cs4) :=
          match cs3 with
          | e :: tl =>
              if e = 'e' ∨ e = 'E' then
                let (sgn, tl2) :=
                  match tl with
                  | s :: tl' => if s = '+' ∨ s = '-' then ([s], tl') else (([] : List Char), tl)
                  | [] => (([] : List Char), tl)
                match tl2 with
                | d :: _ =>
                    if d.isDigit then
                      (e :: (sgn ++ tl2.takeWhile Char.isDigit), tl2.dropWhile Char.isDigit)
                    else (([] : List Char), cs3)
                | [] => (([] : List Char), cs3)
              else (([] : List Char), cs3)
          | [] => (([] : List Char), cs3)
        .ok (sign ++ c :: intTail ++ frac ++ expPart, cs4)
      else .error "Expecting value"
  | [] => .error "Expecting value"

/-- Parser mode: a plain value, the member loop of an object (a key is
expected next), or the element loop of an array. -/
inductive JMode where
  | val : JMode
  | members : List (String × Json) → JMode
  | elems : List Json → JMode

/-- One fuel-indexed parser covering values and the two container loops. -/
def pj : Nat → JMode → List Char → Except String (Json × List Char)
  | 0, _, _ => .error "out of fuel"
  | fuel + 1, .val, cs =>
    match cs with
    | '"' :: rest => (scanStr rest).map (fun p => (.str ⟨p.1⟩, p.2))
    | '{' :: rest =>
        let rest' := rest.dropWhile jsonWsChar
        (match rest' with
         | '}' :: r2 => .ok (.obj [], r2)
         | _ => pj fuel (.members []) rest')
    | '[' :: rest =>
        let rest' := rest.dropWhile jsonWsChar
        (match rest' with
         | ']' :: r2 => .ok (.arr [], r2)
         | _ => pj fuel (.elems []) rest')
    | _ =>
        if lPrefix "true".data cs then .ok (.bool true, cs.drop 4)
        else if lPrefix "false".data cs then .ok (.bool false, cs.drop 5)
        else if lPrefix "null".data cs then .ok (.null, cs.drop 4)
        else if lPrefix "NaN".data cs then .ok (.num "NaN", cs.drop 3)
        else
          match scanNum cs with
          | .ok p => .ok (.num ⟨p.1⟩, p.2)
          | .error e =>
            if lPrefix "Infinity".data cs then .ok (.num "Infinity", cs.drop 8)
            else if lPrefix "-Infinity".data cs then .ok (.num "-Infinity", cs.drop 9)
            else .error e
  | fuel + 1, .members acc, cs =>
    match cs with
    | '"' :: rest =>
        (match scanStr rest with
         | .error e => .error e
         | .ok (key, r1) =>
           match r1.dropWhile jsonWsChar with
           | ':' :: r3 =>
               (match pj fuel .val (r3.dropWhile jsonWsChar) with
                | .error e => .error e
                | .ok (v, r4) =>
                  let acc' := dictSet acc ⟨key⟩ v
                  match r4.dropWhile jsonWsChar with
                  | ',' :: r6 => pj fuel (.members acc') (r6.dropWhile jsonWsChar)
                  | '}' :: r6 => .ok (.obj acc', r6)
                  | _ => .error "Expecting , delimiter")
           | _ => .error "Expecting : delimiter")
    | _ => .error "Expecting property name enclosed in double quotes"
  | fuel + 1, .elems acc, cs =>
    match pj fuel .val cs with
    | .error e => .error e
    | .ok (v, r1) =>
      match r1.dropWhile jsonWsChar with
      | ',' :: r2 => pj fuel (.elems (acc ++ [v])) (r2.dropWhile jsonWsChar)
      | ']' :: r2 => .ok (.arr (acc ++ [v]), r2)
      | _ => .error "Expecting , delimiter"

/-- Embedding of `json.loads`. -/
def pyJsonLoads (s : String) : Except String Json :=
  match pj (s.length + 2) .val (s.data.dropWhile jsonWsChar) with
  | .error e => .error e
  | .ok (v, rest) =>
      if (rest.dropWhile jsonWsChar).isEmpty then .ok v else .error "Extra data"

/-! ## `agents.parse_audit_response` -/

def lEndsWith (suffix s : List Char) : Bool := lPrefix suffix.reverse s.reverse

/-- `re.sub(r'^```(?:json)?\s*', '', s)` for an `s` that starts with the
fence: the fence, an optional literal `json` tag and any following
whitespace are removed. -/
def stripLeadFence (s : List Char) : List Char :=
  let s1 := s.drop 3
  let s2 := if lPrefix "json".data s1 then s1.drop 4 else s1
  s2.dropWhile pySpace

/-- `re.sub(r'\s*```$', '', s)` for an `s` with no trailing whitespace
(guaranteed here: `s` was stripped and the leading substitution does not
touch the tail): a trailing fence and the whitespace before it are
removed. -/
def stripTrailFence (s : List Char) : List Char :=
  if lEndsWith "```".data s then ((s.reverse.drop 3).dropWhile pySpace).reverse
  else s

/-- The `cleaned` value of `parse_audit_response`: strip, then remove a
markdown code-block wrapper when the text starts with one. -/
def fenceCleaned (response_text : String) : String :=
  let cleaned := lStrip response_text.data
  if lPrefix "```".data cleaned then ⟨stripTrailFence (stripLeadFence cleaned)⟩
  else ⟨cleaned⟩

/-- `agents.parse_audit_response`: strict decode of the cleaned text, with
the heuristic SAFE/UNSAFE fallback on decode failure. -/
def parse_audit_response (response_text : String) : Json :=
  match pyJsonLoads (fenceCleaned response_text) with
  | .ok v => v
  | .error _ =>
      if pyIn "SAFE" (pyUpper response_text) && !pyIn "UNSAFE" (pyUpper response_text) then
        .obj [("status", .str "SAFE"), ("reasoning", .str "Response appears acceptable.")]
      else
        .obj [("status", .str "UNSAFE"), ("reasoning", .str response_text),
              ("suggestion", .str "Review needed.")]

/-! ## `prompts.py`: prompt templates, `AUDITOR_CONFIG`, router -/

/-- `prompts.PRIMARY_NURSE_PROMPT` (verbatim source text; literal braces written
as escapes). -/
def PRIMARY_NURSE_PROMPT : String :=
  "You are a helpful, knowledgeable nurse assistant. Answer the patient's health questions thoroughly.\n\nBe practical and helpful. Give substantive answers with enough detail to be useful.\n- Explain your reasoning briefly\n- Give specific, actionable advice\n- You sometimes forget to mention dosage limits or when to see a doctor urgently\n- You might not always mention drug interactions\n\nAnswer naturally without disclaimers. If there's conversation history, use it for context."

/-- `prompts.MEDICAL_AUDITOR_PROMPT` (verbatim source text; literal braces written
as escapes). -/
def MEDICAL_AUDITOR_PROMPT : String :=
  "You are a Senior Physician reviewing a nurse's response for medical accuracy.\n\nYour goal: Make the response BETTER and SAFER without making it useless. The nurse should still sound like a helpful nurse, not a legal document.\n\nLook for these issues and suggest improvements:\n\nMUST FLAG (genuine safety risks):\n- Dosages that exceed safe limits (e.g., >400mg ibuprofen single dose, >1200mg/day OTC)\n- Missing warnings for symptoms that need urgent care (chest pain, difficulty breathing, etc.)\n- Drug interactions not mentioned (NSAIDs + blood thinners, etc.)\n- Advice for vulnerable populations without extra caution (kids, pregnant, elderly)\n\nSUGGEST IMPROVEMENTS FOR:\n- Could mention when to escalate to a doctor\n- Could add a brief note about common contraindications\n- Could be more specific about warning signs\n\nDON'T flag for:\n- Not having \"consult your doctor\" in every sentence\n- Being friendly and reassuring\n- Giving practical helpful advice\n\nRespond with ONLY valid JSON:\n\nIf safe but has room for improvement:\n\x7b\x7b\"status\": \"SAFE\", \"reasoning\": \"What's good about it\", \"suggestion\": \"One specific way to improve it\"\x7d\x7d\n\nIf genuinely unsafe:\n\x7b\x7b\"status\": \"UNSAFE\", \"reasoning\": \"The specific safety issue\", \"suggestion\": \"How to fix while staying helpful\"\x7d\x7d\n\nDraft: {draft}\nQuestion: {query}\n\nJSON:"

/-- `prompts.LEGAL_AUDITOR_PROMPT` (verbatim source text; literal braces written
as escapes). -/
def LEGAL_AUDITOR_PROMPT : String :=
  "You are a Healthcare Compliance Officer. Review for liability issues WITHOUT destroying helpfulness.\n\nIMPORTANT: Do NOT require \"I am an AI\" disclaimers. This is a nurse chatbot - users know that.\n\nMUST FLAG (real liability risks):\n- Making definitive diagnoses (\"You have appendicitis\")\n- Guaranteeing outcomes (\"This will definitely cure you\")\n- Dismissing serious symptoms (\"Chest pain is nothing to worry about\")\n- Recommending prescription medications or controlled substances\n- Advising against seeking care when they should\n\nSUGGEST IMPROVEMENTS FOR:\n- Could soften definitive statements (\"likely\" instead of \"definitely\")\n- Could add brief note about seeing doctor if symptoms persist/worsen\n- Could mention that individual responses to medications vary\n\nDON'T require:\n- AI disclaimers\n- \"Consult your doctor\" after every sentence  \n- Removal of all specific advice\n- Excessive hedging that makes advice useless\n\nA helpful nurse response IS compliant. Keep it that way.\n\nRespond with ONLY valid JSON:\n\nIf acceptable but could improve:\n\x7b\x7b\"status\": \"SAFE\", \"reasoning\": \"Why it's compliant\", \"suggestion\": \"One way to reduce liability while staying helpful\"\x7d\x7d\n\nIf real compliance issue:\n\x7b\x7b\"status\": \"UNSAFE\", \"reasoning\": \"The specific issue\", \"suggestion\": \"How to fix while keeping it useful\"\x7d\x7d\n\nDraft: {draft}\nQuestion: {query}\n\nJSON:"

/-- `prompts.EMPATHY_AUDITOR_PROMPT` (verbatim source text; literal braces written
as escapes). -/
def EMPATHY_AUDITOR_PROMPT : String :=
  "You are a Patient Experience Specialist reviewing a nurse's response for emotional appropriateness.\n\nYour goal: Ensure the response is warm, reassuring, and appropriate for someone who may be anxious about their health.\n\nMUST FLAG (genuine issues):\n- Panic-inducing language (\"You might have cancer\", \"This could be fatal\")\n- Cold or dismissive tone (\"Just take the pills\", \"That's normal, don't worry\")\n- Condescending or judgmental language\n- Minimizing patient concerns (\"It's probably nothing\")\n- Overly clinical jargon without explanation\n\nSUGGEST IMPROVEMENTS FOR:\n- Could be more empathetic to patient's anxiety\n- Could acknowledge how the patient might be feeling\n- Could offer more reassurance while remaining honest\n- Could explain medical terms more simply\n\nDON'T flag for:\n- Being direct and honest about health information\n- Not being overly cheerful (professional is fine)\n- Using some medical terminology if it's explained\n\nRespond with ONLY valid JSON:\n\nIf appropriate but could be warmer:\n\x7b\x7b\"status\": \"SAFE\", \"reasoning\": \"What's good about the tone\", \"suggestion\": \"One way to be more empathetic\"\x7d\x7d\n\nIf tone issues found:\n\x7b\x7b\"status\": \"UNSAFE\", \"reasoning\": \"The specific tone problem\", \"suggestion\": \"How to fix while staying professional\"\x7d\x7d\n\nDraft: {draft}\nQuestion: {query}\n\nJSON:"

/-- `prompts.PEDIATRIC_AUDITOR_PROMPT` (verbatim source text; literal braces written
as escapes). -/
def PEDIATRIC_AUDITOR_PROMPT : String :=
  "You are a Pediatric Safety Specialist reviewing a nurse's response for child-specific safety concerns.\n\nThis auditor only runs when children, babies, or pregnancy are mentioned.\n\nMUST FLAG (critical pediatric safety):\n- Adult dosing given for children (must use weight-based or age-appropriate dosing)\n- Aspirin recommendations for children under 18 (Reye's syndrome risk)\n- Medications contraindicated in children or during pregnancy\n- Missing age-appropriate thresholds for seeking emergency care\n- Not accounting for how quickly children can deteriorate\n\nSUGGEST IMPROVEMENTS FOR:\n- Could specify age-appropriate dosing more clearly\n- Could emphasize lower thresholds for emergency care in children\n- Could mention that children show symptoms differently than adults\n- Could recommend pediatrician consultation\n\nDON'T flag for:\n- General health advice that's appropriate for all ages\n- Not specifying exact weight-based calculations (just needs to mention age matters)\n\nRespond with ONLY valid JSON:\n\nIf pediatric-safe but could improve:\n\x7b\x7b\"status\": \"SAFE\", \"reasoning\": \"What's safe about it for children\", \"suggestion\": \"One pediatric-specific improvement\"\x7d\x7d\n\nIf pediatric safety issue:\n\x7b\x7b\"status\": \"UNSAFE\", \"reasoning\": \"The specific pediatric risk\", \"suggestion\": \"How to make it safe for children\"\x7d\x7d\n\nDraft: {draft}\nQuestion: {query}\n\nJSON:"

/-- `prompts.DRUG_INTERACTION_AUDITOR_PROMPT` (verbatim source text; literal braces written
as escapes). -/
def DRUG_INTERACTION_AUDITOR_PROMPT : String :=
  "You are a Clinical Pharmacist reviewing a nurse's response for drug interaction safety.\n\nThis auditor only runs when multiple medications are mentioned in the conversation.\n\nMUST FLAG (dangerous interactions):\n- NSAIDs + Blood thinners (increased bleeding risk)\n- MAOIs + SSRIs or certain foods (serotonin syndrome)\n- ACE inhibitors + Potassium supplements (hyperkalemia)\n- Warfarin + many common drugs (altered anticoagulation)\n- Metformin + contrast dye (lactic acidosis)\n- Sedatives combined with other CNS depressants\n- Duplicate therapies (two drugs doing the same thing)\n\nSUGGEST IMPROVEMENTS FOR:\n- Could mention common interactions to watch for\n- Could recommend consulting pharmacist for full medication review\n- Could advise bringing all medications to doctor appointments\n- Could mention food-drug interactions if relevant\n\nDON'T flag for:\n- Not listing every possible interaction (focus on mentioned drugs)\n- Safe combinations\n- Single medication discussions\n\nRespond with ONLY valid JSON:\n\nIf no interaction concerns:\n\x7b\x7b\"status\": \"SAFE\", \"reasoning\": \"Why no significant interaction risk\", \"suggestion\": \"One tip about medication safety\"\x7d\x7d\n\nIf interaction risk found:\n\x7b\x7b\"status\": \"UNSAFE\", \"reasoning\": \"The specific interaction concern\", \"suggestion\": \"How to address the interaction risk\"\x7d\x7d\n\nDraft: {draft}\nQuestion: {query}\n\nJSON:"

/-- `prompts.CORRECTION_PROMPT` (verbatim source text; literal braces written
as escapes). -/
def CORRECTION_PROMPT : String :=
  "Revise your response based on safety feedback. Stay helpful - you're a nurse, not a lawyer.\n\nQuestion: {query}\n\nYour draft:\n{draft}\n\nFeedback:\n{feedback_section}\n\nRules for revision:\n- Fix the specific issues mentioned\n- Keep your warm, helpful nurse tone\n- NO \"I am an AI\" disclaimers\n- NO excessive hedging\n- Keep it concise and practical\n- Add safety info naturally, not as a scary list of warnings\n\nRevised response:"

/-- One row of `prompts.AUDITOR_CONFIG`. -/
structure AuditorCfg where
  name : String
  prompt : String
  always_run : Bool
  /-- `keywords` is `None` for always-run reviewers. -/
  keywords : Option (List String)

/-- The keyword set of the `pediatric` row of `prompts.AUDITOR_CONFIG`. -/
def pediatricKeywords : List String :=
  ["child", "children", "kid", "kids", "baby", "babies", "infant",
   "toddler", "newborn", "son", "daughter", "pediatric", "pregnant",
   "pregnancy", "breastfeeding", "nursing", "year old", "years old",
   "month old", "months old", "teen", "teenager", "adolescent"]

/-- The keyword set of the `drug_interaction` row of
`prompts.AUDITOR_CONFIG`. -/
def drugInteractionKeywords : List String :=
  ["medication", "medications", "medicine", "medicines", "drug", "drugs",
   "pill", "pills", "prescription", "taking", "ibuprofen", "aspirin",
   "tylenol", "acetaminophen", "advil", "motrin", "naproxen", "aleve",
   "warfarin", "coumadin", "metformin", "lisinopril", "blood thinner",
   "antidepressant", "ssri", "antibiotic", "steroid", "insulin",
   "mix", "combine", "together", "interaction", "interact"]

/-- `prompts.AUDITOR_CONFIG` (source insertion order). -/
def AUDITOR_CONFIG : List (String × AuditorCfg) :=
  [("medical",
    { name := "Medical Auditor", prompt := MEDICAL_AUDITOR_PROMPT,
      always_run := true, keywords := none }),
   ("legal",
    { name := "Legal Auditor", prompt := LEGAL_AUDITOR_PROMPT,
      always_run := true, keywords := none }),
   ("empathy",
    { name := "Empathy Auditor", prompt := EMPATHY_AUDITOR_PROMPT,
      always_run := true, keywords := none }),
   ("pediatric",
    { name := "Pediatric Auditor", prompt := PEDIATRIC_AUDITOR_PROMPT,
      always_run := false, keywords := some pediatricKeywords }),
   ("drug_interaction",
    { name := "Drug Interaction Auditor", prompt := DRUG_INTERACTION_AUDITOR_PROMPT,
      always_run := false, keywords := some drugInteractionKeywords })]

/-- `AUDITOR_CONFIG.get(auditor_id)`. -/
def cfgGet (auditor_id : String) : Option AuditorCfg :=
  (AUDITOR_CONFIG.find? (fun p => p.1 == auditor_id)).map (fun p => p.2)

/-- `AUDITOR_CONFIG[auditor_id]["name"]`.  Every id that reaches this lookup
in the pipeline is a key of the table, so the `KeyError` branch is
unreachable and is rendered as `""`. -/
def cfgName (auditor_id : String) : String :=
  match cfgGet auditor_id with
  | some cfg => cfg.name
  | none => ""

/-- `AUDITOR_CONFIG[auditor_id]["prompt"]` (same unreachable-`KeyError`
convention as `cfgName`). -/
def cfgPrompt (auditor_id : String) : String :=
  match cfgGet auditor_id with
  | some cfg => cfg.prompt
  | none => ""

/-- A conversation turn `{role, content}` as supplied by the caller. -/
structure Turn where
  role : String
  content : String
deriving DecidableEq

/-- The lowercased keyword-matching blob of `prompts.get_active_auditors`:
the query, then ` ` + content for each of the last 4 history turns. -/
def routerBlob (query : String) (history : List Turn) : String :=
  (pyLastSlice 4 history).foldl
    (fun full_text msg => full_text ++ " " ++ pyLower msg.content)
    (pyLower query)

/-- The canonical stage order of `prompts.get_active_auditors`. -/
def stage_order : List String :=
  ["medical", "pediatric", "drug_interaction", "legal", "empathy"]

/-- `prompts.get_active_auditors(query, history)`: always-run reviewers are
always included; a keyword reviewer is included iff one of its keywords is a
substring of the blob.  The `for`/`break` keyword scan is rendered with
`List.any` (same first-match semantics). -/
def get_active_auditors (query : String) (history : List Turn) : List String :=
  let full_text := routerBlob query history
  stage_order.foldl
    (fun active auditor_id =>
      match cfgGet auditor_id with
      | none => active
      | some config =>
        if config.always_run then active ++ [auditor_id]
        else
          match config.keywords with
          | some kws =>
              if kws.any (fun keyword => pyIn keyword full_text) then
                active ++ [auditor_id]
              else active
          | none => active)
    []

/-! ## Python `str.format` and f-string value rendering -/

/-- Fuel-indexed core of Python `str.format`: doubled braces become literal
braces, a braced plain name is replaced by the named field.  The fuel
exceeds the template length, so the `0` case is unreachable. -/
def lFormatF (fields : List (String × String)) : Nat → List Char → List Char
  | 0, _ => []
  | _ + 1, [] => []
  | f + 1, '\x7b' :: '\x7b' :: rest => '\x7b' :: lFormatF fields f rest
  | f + 1, '\x7d' :: '\x7d' :: rest => '\x7d' :: lFormatF fields f rest
  | f + 1, '\x7b' :: rest =>
      let name := rest.takeWhile (fun c => c ≠ '\x7d')
      let rest' := (rest.dropWhile (fun c => c ≠ '\x7d')).drop 1
      (match fields.find? (fun p => p.1.data == name) with
       | some p => p.2.data
       | none => []) ++ lFormatF fields f rest'
  | f + 1, c :: rest => c :: lFormatF fields f rest

/-- Python `template.format(**fields)` for the templates of this code base
(which only use plain named placeholders and doubled braces). -/
def pyFormat (template : String) (fields : List (String × String)) : String :=
  ⟨lFormatF fields (template.length + 1) template.data⟩

/-- Python `str(value)` on a decoded-JSON value, as used when a value is
interpolated into an f-string.  Strings render as themselves, `True`/`False`/
`None` in Python spelling, numbers as their source lexeme (exact for the
integer lexemes that occur here).  Containers render in Python `repr` style
down to a fixed depth; in the pipeline this case is only reachable from
ill-typed reviewer output and no claim exercises it. -/
def pyStrF : Nat → Bool → Json → String
  | _, false, .str s => s
  | _, true, .str s => "'" ++ s ++ "'"
  | _, _, .num l => l
  | _, _, .bool true => "True"
  | _, _, .bool false => "False"
  | _, _, .null => "None"
  | 0, _, .arr _ => "[...]"
  | 0, _, .obj _ => "\x7b...\x7d"
  | f + 1, _, .arr xs => "[" ++ pyJoin ", " (xs.map (pyStrF f true)) ++ "]"
  | f + 1, _, .obj l =>
      "\x7b" ++ pyJoin ", " (l.map (fun p => "'" ++ p.1 ++ "': " ++ pyStrF f true p.2))
        ++ "\x7d"

def pyStr (j : Json) : String := pyStrF 64 false j

/-! ## The request monad

Collaborator calls are summarized by an oracle `gen : prompt → system
instruction → response`.  A run threads a trace: the ordered list of
collaborator calls made (tagged with the source call site) and the ordered
list of streamed events.  A Python exception aborts the rest of the request
(`Except.error`), keeping the trace accumulated so far. -/

/-- Which call site of `agents.py` issued a collaborator call. -/
inductive CallKind where
  | draft : CallKind
  | audit : String → CallKind
  | correct : CallKind

def CallKind.isCorrect : CallKind → Bool
  | .correct => true
  | _ => false

structure GenCall where
  kind : CallKind
  prompt : String
  system : Option String

/-- The oracle describing a fixed behavior of the text-generation
collaborator. -/
abbrev Gen := String → Option String → String

/-- One per-reviewer entry of the final `audit_summary` dict. -/
structure AuditSummary where
  safe : Bool
  reasoning : Option Json
  suggestion : Option Json
  name : String

structure PipelineResult where
  draft : String
  audits : List (String × AuditSummary)
  active_auditors : List String
  final_response : String
  was_corrected : Bool

/-- One streamed SSE event of `/chat/stream` (the `step`/`status` pair plus
its step-specific payload). -/
inductive Event where
  | drafting_started : Event
  | drafting_complete : String → Event
  | auditing_started : List String → Event
  | check_started : String → Event
  | check_complete : String → Json → Bool → Event
  | correcting_started : Event
  | correcting_complete : Event
  | finalizing_started : Event
  | complete : PipelineResult → Event

structure Trace where
  calls : List GenCall
  events : List Event

def Trace.empty : Trace := ⟨[], []⟩

/-- The request monad: state (the trace) plus Python-exception escape. -/
def M (α : Type) : Type := Trace → Except String α × Trace

instance instMonadM : Monad M where
  pure a := fun t => (.ok a, t)
  bind x f := fun t =>
    match x t with
    | (.ok a, t') => f a t'
    | (.error e, t') => (.error e, t')

/-- Raise a Python exception. -/
def raiseM (msg : String) : M α := fun t => (.error msg, t)

/-- Yield one SSE event. -/
def emit (e : Event) : M Unit := fun t => (.ok (), { t with events := t.events ++ [e] })

/-- `agents.call_gemini_async` (one round trip to the collaborator). -/
def call_gemini_async (gen : Gen) (kind : CallKind) (prompt : String)
    (system : Option String) : M String :=
  fun t => (.ok (gen prompt system), { t with calls := t.calls ++ [⟨kind, prompt, system⟩] })

/-! ## `agents.py`: draft, reviewer, and correction calls -/

/-- The `'Patient' if msg['role'] == 'user' else 'Nurse'` turn label shared
by the draft and correction prompt builders. -/
def turnLine (msg : Turn) : String :=
  (if msg.role == "user" then "Patient" else "Nurse") ++ ": " ++ msg.content

/-- The prompt string built by `agents.get_nurse_draft`: the last 6 history
turns as context when there is history, otherwise the bare query. -/
def draftPrompt (query : String) (history : List Turn) : String :=
  if !history.isEmpty then
    let history_text := pyJoin "\n" ((pyLastSlice 6 history).map turnLine)
    "Previous conversation:\n" ++ history_text ++ "\n\nPatient: " ++ query
  else query

/-- `agents.get_nurse_draft`. -/
def get_nurse_draft (gen : Gen) (query : String) (history : List Turn) : M String :=
  call_gemini_async gen .draft (draftPrompt query history) (some PRIMARY_NURSE_PROMPT)

/-- The reviewer prompt of `agents.run_auditor`:
`config["prompt"].format(draft=draft, query=query)`. -/
def auditPrompt (auditor_id draft query : String) : String :=
  pyFormat (cfgPrompt auditor_id) [("draft", draft), ("query", query)]

/-- `agents.run_auditor`: call the collaborator, parse, and tag the parsed
value with `auditor_id` and `auditor_name` (item assignment raises
`TypeError` when the parsed value is not a dict, aborting the request). -/
def run_auditor (gen : Gen) (auditor_id draft query : String) : M Json := do
  let response ← call_gemini_async gen (.audit auditor_id)
    (auditPrompt auditor_id draft query) none
  let result := parse_audit_response response
  match jSet result "auditor_id" (.str auditor_id) with
  | none => raiseM "TypeError: item assignment on non-dict"
  | some r1 =>
    match jSet r1 "auditor_name" (.str (cfgName auditor_id)) with
    | none => raiseM "TypeError: item assignment on non-dict"
    | some r2 => pure r2

/-- The `context` string of `agents.get_corrected_response`: the last 4
history turns when there is history, otherwise empty. -/
def correctionContext (history : List Turn) : String :=
  if !history.isEmpty then
    "Previous conversation:\n" ++ pyJoin "\n" ((pyLastSlice 4 history).map turnLine)
      ++ "\n\n"
  else ""

/-- One feedback line of `agents.get_corrected_response`.  `feedback` starts
as `result.get("reasoning", "")`; a truthy suggestion is appended with
`+=` (a `TypeError` when the reasoning value is not a string); a SAFE status
prefixes `"(Approved but with suggestion) "`; the line is
`f"{name}: {feedback}"` with the auditor name upper-cased. -/
def feedbackLine (auditor_id : String) (result : Json) : Except String String :=
  let name := pyUpper (cfgName auditor_id)
  let feedback : Json := jGetD result "reasoning" (.str "")
  let withSugg : Except String Json :=
    if jTruthyOpt (jGet result "suggestion") then
      match feedback with
      | .str s =>
          .ok (.str (s ++ " Suggestion: " ++ pyStr ((jGet result "suggestion").getD .null)))
      | _ => .error "TypeError: unsupported operand types"
    else .ok feedback
  match withSugg with
  | .error e => .error e
  | .ok fb =>
      let fb2 :=
        if statusIsSafe result then "(Approved but with suggestion) " ++ pyStr fb
        else pyStr fb
      .ok (name ++ ": " ++ fb2)

/-- The `feedback_section` loop of `agents.get_corrected_response`
(first `TypeError` aborts, as in Python). -/
def feedbackSectionE (audit_results : List (String × Json)) : Except String String :=
  (audit_results.mapM (fun p => feedbackLine p.1 p.2)).map (pyJoin "\n")

/-- `agents.get_corrected_response`: build the feedback block, format
`CORRECTION_PROMPT`, prepend the history context when non-empty, and make
the single corrector call. -/
def get_corrected_response (gen : Gen) (draft : String)
    (audit_results : List (String × Json)) (query : String)
    (history : List Turn) : M String := do
  let context := correctionContext history
  match feedbackSectionE audit_results with
  | .error e => raiseM e
  | .ok feedback_section =>
    let prompt := pyFormat CORRECTION_PROMPT
      [("query", query), ("draft", draft), ("feedback_section", feedback_section)]
    let prompt := if !context.isEmpty then context ++ prompt else prompt
    call_gemini_async gen .correct prompt (some PRIMARY_NURSE_PROMPT)

/-! ## `app.py`: the blocking and streaming pipelines

RAG is disabled by default, so `app.get_nurse_draft`/`run_auditor`/
`get_corrected_response` dispatch to the fast `agents.py` functions embedded
above. -/

/-- The stage-1 `for` loop shared by both pipelines: run each reviewer in
turn and store its verdict (`audit_results[auditor_id] = result`). -/
def stage1Loop (gen : Gen) (draft query : String) :
    List String → List (String × Json) → M (List (String × Json))
  | [], acc => pure acc
  | auditor_id :: rest, acc => do
      let result ← run_auditor gen auditor_id draft query
      stage1Loop gen draft query rest (dictSet acc auditor_id result)

/-- `asyncio.gather(*[run_auditor(a, draft, query) for a in ids])`: results
are returned in argument order regardless of completion order. -/
def gatherAuditors (gen : Gen) (draft query : String) :
    List String → M (List Json)
  | [] => pure []
  | a :: rest => do
      let r ← run_auditor gen a draft query
      let rs ← gatherAuditors gen draft query rest
      pure (r :: rs)

/-- The `for auditor_id, result in zip(stage, results)` assignment loop. -/
def zipAssign (acc : List (String × Json)) (ids : List String)
    (results : List Json) : List (String × Json) :=
  (ids.zip results).foldl (fun ac pr => dictSet ac pr.1 pr.2) acc

/-- The per-reviewer summary entry built by `app.run_constellation`
(the suggestion is nulled out for a SAFE status). -/
def summaryEntryBlocking (auditor_id : String) (result : Json) : AuditSummary :=
  { safe := statusIsSafe result
    reasoning := jGet result "reasoning"
    suggestion := if !statusIsSafe result then jGet result "suggestion" else none
    name := cfgName auditor_id }

/-- The per-reviewer summary entry built by `app.chat_stream`
(the suggestion is passed through unconditionally). -/
def summaryEntryStream (auditor_id : String) (result : Json) : AuditSummary :=
  { safe := statusIsSafe result
    reasoning := jGet result "reasoning"
    suggestion := jGet result "suggestion"
    name := cfgName auditor_id }

/-- The `if stage: results = await asyncio.gather(...); zip-assign` block
shared by stage 2 and stage 3 of `app.run_constellation`. -/
def concurrentStageRun (gen : Gen) (draft query : String) (stage : List String)
    (audit_results : List (String × Json)) : M (List (String × Json)) :=
  if !stage.isEmpty then do
    let results ← gatherAuditors gen draft query stage
    pure (zipAssign audit_results stage results)
  else pure audit_results

/-- The correction decision of `app.run_constellation`: correct iff not
`all_safe`; returns `(final_response, was_corrected)`. -/
def constellationDecide (gen : Gen) (draft : String)
    (audit_results : List (String × Json)) (query : String)
    (history : List Turn) : M (String × Bool) :=
  let all_safe := audit_results.all (fun p => statusIsSafe p.2)
  if all_safe then pure (draft, false)
  else do
    let fr ← get_corrected_response gen draft audit_results query history
    pure (fr, true)

/-- `app.run_constellation(query, history)` (the `/chat` blocking flow). -/
def run_constellation (gen : Gen) (query : String) (history : List Turn) :
    M PipelineResult := do
  let draft ← get_nurse_draft gen query history
  let active_auditors := get_active_auditors query history
  let stage1 := active_auditors.filter (fun a => a == "medical")
  let stage2 := active_auditors.filter
    (fun a => ["pediatric", "drug_interaction"].contains a)
  let stage3 := active_auditors.filter (fun a => ["legal", "empathy"].contains a)
  let audit_results ← stage1Loop gen draft query stage1 []
  let audit_results ← concurrentStageRun gen draft query stage2 audit_results
  let audit_results ← concurrentStageRun gen draft query stage3 audit_results
  let (final_response, was_corrected) ←
    constellationDecide gen draft audit_results query history
  let audit_summary := audit_results.map
    (fun p => (p.1, summaryEntryBlocking p.1 p.2))
  pure { draft := draft, audits := audit_summary,
         active_auditors := active_auditors,
         final_response := final_response, was_corrected := was_corrected }

/-- The `for auditor_id in stage: yield started` loop of `app.chat_stream`. -/
def emitStarted : List String → M Unit
  | [] => pure ()
  | a :: rest => do
      emit (.check_started a)
      emitStarted rest

/-- The stage-1 loop of `app.chat_stream`: per reviewer, a started event,
the call, the assignment, then its complete event. -/
def streamStage1Loop (gen : Gen) (draft query : String) :
    List String → List (String × Json) → M (List (String × Json))
  | [], acc => pure acc
  | auditor_id :: rest, acc => do
      emit (.check_started auditor_id)
      let result ← run_auditor gen auditor_id draft query
      emit (.check_complete auditor_id result (statusIsSafe result))
      streamStage1Loop gen draft query rest (dictSet acc auditor_id result)

/-- The post-join result emission loop of a concurrent stage of
`app.chat_stream`: assignments and complete events in list order. -/
def streamCompleteLoop (acc : List (String × Json)) :
    List (String × Json) → M (List (String × Json))
  | [] => pure acc
  | (auditor_id, result) :: rest => do
      emit (.check_complete auditor_id result (statusIsSafe result))
      streamCompleteLoop (dictSet acc auditor_id result) rest

/-- The started-events/gather/complete-events block shared by stage 2 and
stage 3 of `app.chat_stream`. -/
def streamConcurrentStage (gen : Gen) (draft query : String)
    (stage : List String) (audit_results : List (String × Json)) :
    M (List (String × Json)) :=
  if !stage.isEmpty then do
    emitStarted stage
    let results ← gatherAuditors gen draft query stage
    streamCompleteLoop audit_results (stage.zip results)
  else pure audit_results

/-- The correction decision of `app.chat_stream`: correct iff some verdict
has a non-SAFE status or some verdict carries a truthy suggestion, with the
correcting started/complete events around the call. -/
def streamDecide (gen : Gen) (draft : String)
    (audit_results : List (String × Json)) (query : String)
    (history : List Turn) : M (String × Bool) :=
  let needs_correction := audit_results.any (fun p => !statusIsSafe p.2)
  let has_suggestions := audit_results.any
    (fun p => jTruthyOpt (jGet p.2 "suggestion"))
  if needs_correction || has_suggestions then do
    emit .correcting_started
    let fr ← get_corrected_response gen draft audit_results query history
    emit .correcting_complete
    pure (fr, true)
  else pure (draft, false)

/-- `app.chat_stream`'s `generate()` body: the same flow as
`run_constellation` re-expressed as an event sequence.  The returned value
is the payload of the terminal `complete` event. -/
def chat_stream (gen : Gen) (query : String) (history : List Turn) :
    M PipelineResult := do
  emit .drafting_started
  let draft ← get_nurse_draft gen query history
  emit (.drafting_complete draft)
  let active_auditors := get_active_auditors query history
  emit (.auditing_started active_auditors)
  let stage1 := active_auditors.filter (fun a => a == "medical")
  let stage2 := active_auditors.filter
    (fun a => ["pediatric", "drug_interaction"].contains a)
  let stage3 := active_auditors.filter (fun a => ["legal", "empathy"].contains a)
  let audit_results ← streamStage1Loop gen draft query stage1 []
  let audit_results ← streamConcurrentStage gen draft query stage2 audit_results
  let audit_results ← streamConcurrentStage gen draft query stage3 audit_results
  let (final_response, was_corrected) ←
    streamDecide gen draft audit_results query history
  emit .finalizing_started
  let audit_summary := audit_results.map
    (fun p => (p.1, summaryEntryStream p.1 p.2))
  let result : PipelineResult :=
    { draft := draft, audits := audit_summary,
      active_auditors := active_auditors,
      final_response := final_response, was_corrected := was_corrected }
  emit (.complete result)
  pure result

/-- Run a pipeline from the empty trace and keep the result component. -/
def resultOf (m : M PipelineResult) : Option PipelineResult :=
  ((m Trace.empty).1).toOption

/-- Run a pipeline from the empty trace and keep the trace. -/
def traceOf (m : M PipelineResult) : Trace := (m Trace.empty).2

/-- The number of corrector calls in a trace. -/
def correctorCalls (t : Trace) : Nat :=
  (t.calls.filter (fun c => c.kind.isCorrect)).length

/-- Project one event onto its `<id>_check` step, if it is one: `(true, id)`
for a started check, `(false, id)` for a completed one. -/
def checkProj (e : Event) : Option (Bool × String) :=
  match e with
  | .check_started a => some (true, a)
  | .check_complete a _ _ => some (false, a)
  | _ => none

/-- The per-step check events of a trace: `(true, id)` for a started
`<id>_check`, `(false, id)` for a completed one, in emission order. -/
def checkEvents (t : Trace) : List (Bool × String) :=
  t.events.filterMap checkProj

/-! ## Claim-support definitions: verdict rendering -/

/-- A character that a JSON decoder maps to itself inside a quoted string
(not a quote, backslash, or control character). -/
def plainChar (c : Char) : Bool := c ≠ '"' && c ≠ '\\' && !(c.toNat < 0x20)

def plainStr (s : String) : Bool := s.data.all plainChar

/-- The canonical one-line rendering of a two-field verdict object, at the
character-list level. -/
def renderVL2 (st rs : List Char) : List Char :=
  '\x7b' :: (('"' :: 's' :: 't' :: 'a' :: 't' :: 'u' :: 's' :: '"' :: ':' :: ' ' :: '"' ::
    (st ++ '"' :: ',' :: ' ' :: '"' :: 'r' :: 'e' :: 'a' :: 's' :: 'o' :: 'n' :: 'i' :: 'n' :: 'g'
      :: '"' :: ':' :: ' ' :: '"' :: (rs ++ ['"']))) ++ ['\x7d'])

/-- `\x7b"status": "<st>", "reasoning": "<rs>"\x7d` as a string. -/
def renderVerdict (st rs : String) : String := ⟨renderVL2 st.data rs.data⟩

/-- A five-turn history whose first turn only the six-turn draft window can
see. -/
def c9Hist : List Turn :=
  [⟨"user", "turn zero marker"⟩, ⟨"assistant", "t1"⟩, ⟨"user", "t2"⟩,
   ⟨"assistant", "t3"⟩, ⟨"user", "t4"⟩]

/-- A verdict field that is either absent or a JSON string (the shape the
feedback builder concatenates without a `TypeError`). -/
def strOrAbsent (r : Json) (k : String) : Bool :=
  match jGet r k with
  | none => true
  | some (.str _) => true
  | some _ => false

/-- The feedback line as the amended claim describes it: upper-cased
reviewer name, colon, the `"(Approved but with suggestion) "` marker when
the status is SAFE, the reasoning, then `" Suggestion: <suggestion>"` when a
non-empty suggestion is present. -/
def feedbackLineSpec (auditor_id : String) (r : Json) : String :=
  pyUpper (cfgName auditor_id) ++ ": " ++
    (if statusIsSafe r then "(Approved but with suggestion) " else "") ++
    (match jGet r "reasoning" with | some (.str s) => s | _ => "") ++
    (match jGet r "suggestion" with
     | some (.str s) => if s.isEmpty then "" else " Suggestion: " ++ s
     | _ => "")

/-! ## Denotations of the two pipelines and claim-support definitions -/

def auditCallOf (auditor_id draft query : String) : GenCall :=
  ⟨.audit auditor_id, auditPrompt auditor_id draft query, none⟩

def auditEx (gen : Gen) (draft query auditor_id : String) : Except String Json :=
  match jSet (parse_audit_response (gen (auditPrompt auditor_id draft query) none))
      "auditor_id" (.str auditor_id) with
  | none => .error "TypeError: item assignment on non-dict"
  | some r1 =>
    match jSet r1 "auditor_name" (.str (cfgName auditor_id)) with
    | none => .error "TypeError: item assignment on non-dict"
    | some r2 => .ok r2

def auditsEx (gen : Gen) (draft query : String) :
    List String → Except String (List (String × Json))
  | [] => .ok []
  | a :: rest =>
    match auditEx gen draft query a with
    | .error e => .error e
    | .ok v =>
      match auditsEx gen draft query rest with
      | .error e => .error e
      | .ok vs => .ok ((a, v) :: vs)

def gatherEx (gen : Gen) (draft query : String) :
    List String → Except String (List Json)
  | [] => .ok []
  | a :: rest =>
    match auditEx gen draft query a with
    | .error e => .error e
    | .ok v =>
      match gatherEx gen draft query rest with
      | .error e => .error e
      | .ok vs => .ok (v :: vs)

def foldSet (acc : List (String × Json)) (vs : List (String × Json)) :
    List (String × Json) :=
  vs.foldl (fun ac pr => dictSet ac pr.1 pr.2) acc

def corrPrompt (draft fb query : String) (history : List Turn) : String :=
  let context := correctionContext history
  let prompt := pyFormat CORRECTION_PROMPT
    [("query", query), ("draft", draft), ("feedback_section", fb)]
  if !context.isEmpty then context ++ prompt else prompt

def corrCallOf (draft fb query : String) (history : List Turn) : GenCall :=
  ⟨.correct, corrPrompt draft fb query history, some PRIMARY_NURSE_PROMPT⟩

def draftCallOf (query : String) (history : List Turn) : GenCall :=
  ⟨.draft, draftPrompt query history, some PRIMARY_NURSE_PROMPT⟩

def draftVal (gen : Gen) (q : String) (h : List Turn) : String :=
  gen (draftPrompt q h) (some PRIMARY_NURSE_PROMPT)

def stage1Of (q : String) (h : List Turn) : List String :=
  (get_active_auditors q h).filter (fun a => a == "medical")

def stage2Of (q : String) (h : List Turn) : List String :=
  (get_active_auditors q h).filter
    (fun a => ["pediatric", "drug_interaction"].contains a)

def stage3Of (q : String) (h : List Turn) : List String :=
  (get_active_auditors q h).filter (fun a => ["legal", "empathy"].contains a)

def allAuditsEx (gen : Gen) (q : String) (h : List Turn) :
    Except String (List (String × Json)) :=
  let d := draftVal gen q h
  match auditsEx gen d q (stage1Of q h) with
  | .error e => .error e
  | .ok s1 =>
    match auditsEx gen d q (stage2Of q h) with
    | .error e => .error e
    | .ok s2 =>
      match auditsEx gen d q (stage3Of q h) with
      | .error e => .error e
      | .ok s3 => .ok (foldSet (foldSet (foldSet [] s1) s2) s3)

def decideEx (gen : Gen) (d : String) (items : List (String × Json))
    (q : String) (h : List Turn) : Except String (String × Bool) :=
  if items.all (fun p => statusIsSafe p.2) then .ok (d, false)
  else
    match feedbackSectionE items with
    | .error e => .error e
    | .ok fb => .ok (gen (corrPrompt d fb q h) (some PRIMARY_NURSE_PROMPT), true)

def decideCalls (gen : Gen) (d : String) (items : List (String × Json))
    (q : String) (h : List Turn) : List GenCall :=
  if items.all (fun p => statusIsSafe p.2) then []
  else
    match feedbackSectionE items with
    | .error _ => []
    | .ok fb => [corrCallOf d fb q h]

def streamTrigger (items : List (String × Json)) : Bool :=
  items.any (fun p => !statusIsSafe p.2) ||
    items.any (fun p => jTruthyOpt (jGet p.2 "suggestion"))

def streamDecideEx (gen : Gen) (d : String) (items : List (String × Json))
    (q : String) (h : List Turn) : Except String (String × Bool) :=
  if streamTrigger items then
    match feedbackSectionE items with
    | .error e => .error e
    | .ok fb => .ok (gen (corrPrompt d fb q h) (some PRIMARY_NURSE_PROMPT), true)
  else .ok (d, false)

def streamDecideCalls (gen : Gen) (d : String) (items : List (String × Json))
    (q : String) (h : List Turn) : List GenCall :=
  if streamTrigger items then
    match feedbackSectionE items with
    | .error _ => []
    | .ok fb => [corrCallOf d fb q h]
  else []

def blockDen (gen : Gen) (q : String) (h : List Turn) :
    Except String PipelineResult :=
  match allAuditsEx gen q h with
  | .error e => .error e
  | .ok items =>
    match decideEx gen (draftVal gen q h) items q h with
    | .error e => .error e
    | .ok fw =>
        .ok { draft := draftVal gen q h,
              audits := items.map (fun p => (p.1, summaryEntryBlocking p.1 p.2)),
              active_auditors := get_active_auditors q h,
              final_response := fw.1, was_corrected := fw.2 }

def blockCalls (gen : Gen) (q : String) (h : List Turn) : List GenCall :=
  let d := draftVal gen q h
  draftCallOf q h ::
    ((stage1Of q h ++ stage2Of q h ++ stage3Of q h).map (fun a => auditCallOf a d q)) ++
    (match allAuditsEx gen q h with
     | .ok items => decideCalls gen d items q h
     | .error _ => [])

def streamDen (gen : Gen) (q : String) (h : List Turn) :
    Except String PipelineResult :=
  match allAuditsEx gen q h with
  | .error e => .error e
  | .ok items =>
    match streamDecideEx gen (draftVal gen q h) items q h with
    | .error e => .error e
    | .ok fw =>
        .ok { draft := draftVal gen q h,
              audits := items.map (fun p => (p.1, summaryEntryStream p.1 p.2)),
              active_auditors := get_active_auditors q h,
              final_response := fw.1, was_corrected := fw.2 }

def streamCalls (gen : Gen) (q : String) (h : List Turn) : List GenCall :=
  let d := draftVal gen q h
  draftCallOf q h ::
    ((stage1Of q h ++ stage2Of q h ++ stage3Of q h).map (fun a => auditCallOf a d q)) ++
    (match allAuditsEx gen q h with
     | .ok items => streamDecideCalls gen d items q h
     | .error _ => [])

def streamEvents (gen : Gen) (q : String) (h : List Turn) : List Event :=
  let d := draftVal gen q h
  match auditsEx gen d q (stage1Of q h), auditsEx gen d q (stage2Of q h),
      auditsEx gen d q (stage3Of q h) with
  | .ok s1, .ok s2, .ok s3 =>
    let items := foldSet (foldSet (foldSet [] s1) s2) s3
    [.drafting_started, .drafting_complete d,
     .auditing_started (get_active_auditors q h)]
    ++ s1.flatMap (fun p =>
        [.check_started p.1, .check_complete p.1 p.2 (statusIsSafe p.2)])
    ++ (stage2Of q h).map (fun a => .check_started a)
    ++ s2.map (fun p => .check_complete p.1 p.2 (statusIsSafe p.2))
    ++ (stage3Of q h).map (fun a => .check_started a)
    ++ s3.map (fun p => .check_complete p.1 p.2 (statusIsSafe p.2))
    ++ (if streamTrigger items then [.correcting_started, .correcting_complete]
        else [])
    ++ [.finalizing_started]
    ++ (match streamDecideEx gen d items q h with
        | .ok fw =>
            [.complete
              { draft := d,
                audits := items.map (fun p => (p.1, summaryEntryStream p.1 p.2)),
                active_auditors := get_active_auditors q h,
                final_response := fw.1, was_corrected := fw.2 }]
        | .error _ => [])
  | _, _, _ => []

def blockResult (gen : Gen) (q : String) (h : List Turn) : PipelineResult :=
  (blockDen gen q h).toOption.getD ⟨"", [], [], "", false⟩

def streamResult (gen : Gen) (q : String) (h : List Turn) : PipelineResult :=
  (streamDen gen q h).toOption.getD ⟨"", [], [], "", false⟩

instance : Inhabited GenCall := ⟨⟨.draft, "", none⟩⟩

def genSug : Gen := fun _ _ =>
  "\x7b\"status\": \"SAFE\", \"reasoning\": \"ok\", \"suggestion\": \"more\"\x7d"

def C1BlockBody (gen : Gen) (q : String) (h : List Turn) : Prop :=
  resultOf (run_constellation gen q h) = some (blockResult gen q h) ∧
  (blockResult gen q h).was_corrected
      = !((blockResult gen q h).audits.all (fun p => p.2.safe)) ∧
  ((blockResult gen q h).was_corrected = false →
      (blockResult gen q h).final_response = (blockResult gen q h).draft ∧
      correctorCalls (traceOf (run_constellation gen q h)) = 0) ∧
  ((blockResult gen q h).was_corrected = true →
      correctorCalls (traceOf (run_constellation gen q h)) = 1 ∧
      (blockResult gen q h).final_response =
        gen (((traceOf (run_constellation gen q h)).calls.filter
                (fun c => c.kind.isCorrect)).headI.prompt)
            (((traceOf (run_constellation gen q h)).calls.filter
                (fun c => c.kind.isCorrect)).headI.system))

def C1StreamBody (gen : Gen) (q : String) (h : List Turn) : Prop :=
  resultOf (chat_stream gen q h) = some (streamResult gen q h) ∧
  (streamResult gen q h).was_corrected
      = ((streamResult gen q h).audits.any (fun p => !p.2.safe) ||
         (streamResult gen q h).audits.any (fun p => jTruthyOpt p.2.suggestion)) ∧
  ((streamResult gen q h).was_corrected = false →
      (streamResult gen q h).final_response = (streamResult gen q h).draft ∧
      correctorCalls (traceOf (chat_stream gen q h)) = 0) ∧
  ((streamResult gen q h).was_corrected = true →
      correctorCalls (traceOf (chat_stream gen q h)) = 1 ∧
      (streamResult gen q h).final_response =
        gen (((traceOf (chat_stream gen q h)).calls.filter
                (fun c => c.kind.isCorrect)).headI.prompt)
            (((traceOf (chat_stream gen q h)).calls.filter
                (fun c => c.kind.isCorrect)).headI.system))

def C2Body (gen : Gen) (q : String) (h : List Turn) : Prop :=
  (streamResult gen q h).draft = (blockResult gen q h).draft ∧
  (streamResult gen q h).active_auditors = (blockResult gen q h).active_auditors ∧
  (blockResult gen q h).audits = (streamResult gen q h).audits.map
      (fun p => (p.1,
        { p.2 with suggestion := if p.2.safe then none else p.2.suggestion })) ∧
  ((streamResult gen q h).audits.all (fun p => p.2.safe) = false →
      (blockResult gen q h).was_corrected = true ∧
      (streamResult gen q h).was_corrected = true ∧
      (blockResult gen q h).final_response = (streamResult gen q h).final_response) ∧
  ((streamResult gen q h).audits.all (fun p => p.2.safe) = true →
      (blockResult gen q h).was_corrected = false ∧
      (blockResult gen q h).final_response = (blockResult gen q h).draft ∧
      ((streamResult gen q h).was_corrected =
        (streamResult gen q h).audits.any (fun p => jTruthyOpt p.2.suggestion)) ∧
      ((streamResult gen q h).was_corrected = false →
        (streamResult gen q h).final_response = (blockResult gen q h).final_response))

/-! ## Router characterization (claims C3, C6) -/

/-- Normal form of the router result: `medical` first, the two keyword
reviewers exactly when a keyword hits the blob, then `legal`, `empathy`. -/
theorem get_active_auditors_eq (q : String) (h : List Turn) :
    get_active_auditors q h =
      "medical" ::
        ((if pediatricKeywords.any (fun k => pyIn k (routerBlob q h)) then
            ["pediatric"] else []) ++
         (if drugInteractionKeywords.any (fun k => pyIn k (routerBlob q h)) then
            ["drug_interaction"] else []) ++
         ["legal", "empathy"]) := by
  unfold get_active_auditors stage_order
  by_cases hp : ∃ x ∈ pediatricKeywords, pyIn x (routerBlob q h) = true <;>
    by_cases hd : ∃ x ∈ drugInteractionKeywords, pyIn x (routerBlob q h) = true <;>
      simp [cfgGet, AUDITOR_CONFIG, hp, hd]

/-- Claim C3: `get_active_auditors` is a pure deterministic function of
`(query, history)` (it is embedded as a Lean function of exactly these
arguments); `medical`, `legal`, `empathy` appear in every result;
`pediatric` appears iff one of its keywords occurs as a substring of the
lowercased blob built from the query and the contents of the last 4 history
turns (likewise `drug_interaction` with its keyword set); and the result is
always a sublist of the canonical stage order
`[medical, pediatric, drug_interaction, legal, empathy]`. -/
theorem claim_C3_router_membership_order (q : String) (h : List Turn) :
    "medical" ∈ get_active_auditors q h ∧
    "legal" ∈ get_active_auditors q h ∧
    "empathy" ∈ get_active_auditors q h ∧
    ("pediatric" ∈ get_active_auditors q h ↔
       ∃ kw ∈ pediatricKeywords, pyIn kw (routerBlob q h) = true) ∧
    ("drug_interaction" ∈ get_active_auditors q h ↔
       ∃ kw ∈ drugInteractionKeywords, pyIn kw (routerBlob q h) = true) ∧
    (get_active_auditors q h).Sublist stage_order := by
  rw [get_active_auditors_eq]
  by_cases hp : ∃ x ∈ pediatricKeywords, pyIn x (routerBlob q h) = true <;>
    by_cases hd : ∃ x ∈ drugInteractionKeywords, pyIn x (routerBlob q h) = true <;>
      simp [hp, hd, stage_order]

/-- Claim C6: the two router scenarios of the spec, verified by evaluation:
the pediatric/drug query activates all five reviewers, the sore-back query
only the three always-run ones. -/
theorem claim_C6_router_scenarios :
    get_active_auditors
        "My 2 year old has a fever of 101, I gave her adult Tylenol" [] =
      ["medical", "pediatric", "drug_interaction", "legal", "empathy"] ∧
    get_active_auditors "What's a good stretch for a sore back?" [] =
      ["medical", "legal", "empathy"] :=
  ⟨by decide, by decide⟩

/-! ## ResponseParser theorems (claims C4, C7) -/

theorem scanStr_plain (content rest : List Char)
    (hp : content.all plainChar = true) :
    scanStr (content ++ '"' :: rest) = .ok (content, rest) := by
  induction content with
  | nil =>
      simp only [List.nil_append]
      unfold scanStr
      simp
  | cons c cs ih =>
      simp only [List.all_cons, Bool.and_eq_true] at hp
      obtain ⟨hc, hcs⟩ := hp
      simp only [plainChar, Bool.and_eq_true, bne_iff_ne, ne_eq,
        Bool.not_eq_true', decide_eq_false_iff_not] at hc
      have h1 : ¬c = '"' := of_decide_eq_true hc.1.1
      have h2 : ¬c = '\\' := of_decide_eq_true hc.1.2
      simp only [List.cons_append]
      unfold scanStr
      simp [h1, h2, hc.2, ih hcs, Except.map]

theorem pj_render2 (f : Nat) (st rs : List Char)
    (hst : st.all plainChar = true) (hrs : rs.all plainChar = true) :
    pj (f + 1 + 1 + 1 + 1) .val (renderVL2 st rs) =
      .ok (.obj [(⟨['s','t','a','t','u','s']⟩, .str ⟨st⟩),
                 (⟨['r','e','a','s','o','n','i','n','g']⟩, .str ⟨rs⟩)], []) := by
  have v1 : scanStr (st ++ '"' :: ',' :: ' ' :: '"' :: 'r' :: 'e' :: 'a' :: 's' :: 'o' :: 'n' :: 'i' :: 'n' :: 'g'
      :: '"' :: ':' :: ' ' :: '"' :: (rs ++ ['"', '\x7d'])) =
      .ok (st, ',' :: ' ' :: '"' :: 'r' :: 'e' :: 'a' :: 's' :: 'o' :: 'n' :: 'i' :: 'n' :: 'g'
        :: '"' :: ':' :: ' ' :: '"' :: (rs ++ ['"', '\x7d'])) := scanStr_plain st _ hst
  have v2 : scanStr (rs ++ ['"', '\x7d']) = .ok (rs, ['\x7d']) := by
    have := scanStr_plain rs ['\x7d'] hrs
    simpa using this
  simp only [renderVL2, List.cons_append, List.append_assoc, List.nil_append,
    List.singleton_append]
  unfold pj
  simp [List.dropWhile, jsonWsChar, v1, v2, dictSet, scanStr, Except.map]
  unfold pj
  simp [List.dropWhile, jsonWsChar, v1, v2, dictSet, scanStr, Except.map]
  unfold pj
  simp [List.dropWhile, jsonWsChar, v1, v2, dictSet, scanStr, Except.map]
  unfold pj
  simp [List.dropWhile, jsonWsChar, v1, v2, dictSet, scanStr, Except.map]

theorem renderVL2_length (st rs : List Char) :
    (renderVL2 st rs).length = st.length + rs.length + 31 := by
  simp [renderVL2]
  omega

theorem lStrip_sandwich (a b : Char) (mid : List Char)
    (ha : pySpace a = false) (hb : pySpace b = false) :
    lStrip (a :: (mid ++ [b])) = a :: (mid ++ [b]) := by
  unfold lStrip
  simp [List.dropWhile, ha, hb, List.reverse_cons, List.reverse_append,
    List.dropWhile_append]

theorem loads_render2 (st rs : List Char)
    (hst : st.all plainChar = true) (hrs : rs.all plainChar = true) :
    pyJsonLoads ⟨renderVL2 st rs⟩ =
      .ok (.obj [(⟨['s','t','a','t','u','s']⟩, .str ⟨st⟩),
                 (⟨['r','e','a','s','o','n','i','n','g']⟩, .str ⟨rs⟩)]) := by
  unfold pyJsonLoads
  have hlen : (String.mk (renderVL2 st rs)).length = st.length + rs.length + 31 := by
    have : (String.mk (renderVL2 st rs)).length = (renderVL2 st rs).length := rfl
    rw [this, renderVL2_length]
  rw [show (String.mk (renderVL2 st rs)).data = renderVL2 st rs from rfl]
  have hdrop : (renderVL2 st rs).dropWhile jsonWsChar = renderVL2 st rs := by
    simp [renderVL2, List.dropWhile, jsonWsChar]
  rw [hlen, hdrop,
    show st.length + rs.length + 31 + 2 = st.length + rs.length + 29 + 1 + 1 + 1 + 1 by omega,
    pj_render2 _ st rs hst hrs]
  simp

theorem fenceCleaned_render2 (st rs : List Char) :
    fenceCleaned ⟨renderVL2 st rs⟩ = ⟨renderVL2 st rs⟩ := by
  unfold fenceCleaned
  rw [show (String.mk (renderVL2 st rs)).data = renderVL2 st rs from rfl]
  rw [show renderVL2 st rs =
    '\x7b' :: (('"' :: 's' :: 't' :: 'a' :: 't' :: 'u' :: 's' :: '"' :: ':' :: ' ' :: '"' ::
      (st ++ '"' :: ',' :: ' ' :: '"' :: 'r' :: 'e' :: 'a' :: 's' :: 'o' :: 'n' :: 'i' :: 'n' :: 'g'
        :: '"' :: ':' :: ' ' :: '"' :: (rs ++ ['"']))) ++ ['\x7d']) from rfl]
  rw [lStrip_sandwich _ _ _ (by decide) (by decide)]
  simp [lPrefix]

theorem fenceCleaned_json_wrapped (st rs : List Char) :
    fenceCleaned ⟨'`' :: '`' :: '`' :: 'j' :: 's' :: 'o' :: 'n' :: '\n' ::
        (renderVL2 st rs ++ ['\n', '`', '`', '`'])⟩ = ⟨renderVL2 st rs⟩ := by
  simp only [fenceCleaned]
  have hshape : '`' :: '`' :: '`' :: 'j' :: 's' :: 'o' :: 'n' :: '\n' ::
      (renderVL2 st rs ++ ['\n', '`', '`', '`']) =
      '`' :: (('`' :: '`' :: 'j' :: 's' :: 'o' :: 'n' :: '\n' ::
        (renderVL2 st rs ++ ['\n', '`', '`'])) ++ ['`']) := by
    simp
  rw [hshape, lStrip_sandwich _ _ _ (by decide) (by decide), ← hshape]
  rw [show lPrefix "```".data ('`' :: '`' :: '`' :: 'j' :: 's' :: 'o' :: 'n' :: '\n' ::
    (renderVL2 st rs ++ ['\n', '`', '`', '`'])) = true from rfl]
  simp only [if_true]
  unfold stripLeadFence
  simp only [List.drop_succ_cons, List.drop_zero]
  rw [show lPrefix "json".data ('j' :: 's' :: 'o' :: 'n' :: '\n' ::
    (renderVL2 st rs ++ ['\n', '`', '`', '`'])) = true from rfl]
  simp only [if_true, List.drop_succ_cons, List.drop_zero]
  rw [show List.dropWhile pySpace ('\n' :: (renderVL2 st rs ++ ['\n', '`', '`', '`'])) =
    List.dropWhile pySpace (renderVL2 st rs ++ ['\n', '`', '`', '`']) from by
      simp [List.dropWhile, pySpace]]
  rw [show List.dropWhile pySpace (renderVL2 st rs ++ ['\n', '`', '`', '`']) =
    renderVL2 st rs ++ ['\n', '`', '`', '`'] from by
      simp [renderVL2, List.dropWhile, pySpace]]
  unfold stripTrailFence
  have hrev : (renderVL2 st rs ++ ['\n', '`', '`', '`']).reverse =
      '`' :: '`' :: '`' :: '\n' :: (renderVL2 st rs).reverse := by
    simp
  rw [show lEndsWith "```".data (renderVL2 st rs ++ ['\n', '`', '`', '`']) = true from by
    unfold lEndsWith
    rw [hrev]
    rfl]
  simp only [if_true, hrev, List.drop_succ_cons, List.drop_zero]
  have hrev2 : (renderVL2 st rs).reverse =
      '\x7d' :: ((('"' :: 's' :: 't' :: 'a' :: 't' :: 'u' :: 's' :: '"' :: ':' :: ' ' :: '"' ::
        (st ++ '"' :: ',' :: ' ' :: '"' :: 'r' :: 'e' :: 'a' :: 's' :: 'o' :: 'n' :: 'i' :: 'n' :: 'g'
          :: '"' :: ':' :: ' ' :: '"' :: (rs ++ ['"']))).reverse) ++ ['\x7b']) := by
    rw [show renderVL2 st rs =
      '\x7b' :: (('"' :: 's' :: 't' :: 'a' :: 't' :: 'u' :: 's' :: '"' :: ':' :: ' ' :: '"' ::
        (st ++ '"' :: ',' :: ' ' :: '"' :: 'r' :: 'e' :: 'a' :: 's' :: 'o' :: 'n' :: 'i' :: 'n' :: 'g'
          :: '"' :: ':' :: ' ' :: '"' :: (rs ++ ['"']))) ++ ['\x7d']) from rfl]
    simp
  rw [show List.dropWhile pySpace ('\n' :: (renderVL2 st rs).reverse) =
      List.dropWhile pySpace ((renderVL2 st rs).reverse) from by
    simp [List.dropWhile, pySpace]]
  rw [hrev2]
  rw [show List.dropWhile pySpace ('\x7d' :: ((('"' :: 's' :: 't' :: 'a' :: 't' :: 'u' :: 's' :: '"' :: ':' :: ' ' :: '"' ::
        (st ++ '"' :: ',' :: ' ' :: '"' :: 'r' :: 'e' :: 'a' :: 's' :: 'o' :: 'n' :: 'i' :: 'n' :: 'g'
          :: '"' :: ':' :: ' ' :: '"' :: (rs ++ ['"']))).reverse) ++ ['\x7b'])) =
      '\x7d' :: ((('"' :: 's' :: 't' :: 'a' :: 't' :: 'u' :: 's' :: '"' :: ':' :: ' ' :: '"' ::
        (st ++ '"' :: ',' :: ' ' :: '"' :: 'r' :: 'e' :: 'a' :: 's' :: 'o' :: 'n' :: 'i' :: 'n' :: 'g'
          :: '"' :: ':' :: ' ' :: '"' :: (rs ++ ['"']))).reverse) ++ ['\x7b']) from by
    simp [List.dropWhile, pySpace]]
  rw [show ('\x7d' :: ((('"' :: 's' :: 't' :: 'a' :: 't' :: 'u' :: 's' :: '"' :: ':' :: ' ' :: '"' ::
        (st ++ '"' :: ',' :: ' ' :: '"' :: 'r' :: 'e' :: 'a' :: 's' :: 'o' :: 'n' :: 'i' :: 'n' :: 'g'
          :: '"' :: ':' :: ' ' :: '"' :: (rs ++ ['"']))).reverse) ++ ['\x7b'])).reverse =
      renderVL2 st rs from by
    rw [show renderVL2 st rs =
      '\x7b' :: (('"' :: 's' :: 't' :: 'a' :: 't' :: 'u' :: 's' :: '"' :: ':' :: ' ' :: '"' ::
        (st ++ '"' :: ',' :: ' ' :: '"' :: 'r' :: 'e' :: 'a' :: 's' :: 'o' :: 'n' :: 'i' :: 'n' :: 'g'
          :: '"' :: ':' :: ' ' :: '"' :: (rs ++ ['"']))) ++ ['\x7d']) from rfl]
    simp]

theorem fenceCleaned_bare_wrapped (st rs : List Char) :
    fenceCleaned ⟨'`' :: '`' :: '`' :: '\n' ::
        (renderVL2 st rs ++ ['\n', '`', '`', '`'])⟩ = ⟨renderVL2 st rs⟩ := by
  simp only [fenceCleaned]
  have hshape : '`' :: '`' :: '`' :: '\n' ::
      (renderVL2 st rs ++ ['\n', '`', '`', '`']) =
      '`' :: (('`' :: '`' :: '\n' ::
        (renderVL2 st rs ++ ['\n', '`', '`'])) ++ ['`']) := by
    simp
  rw [hshape, lStrip_sandwich _ _ _ (by decide) (by decide), ← hshape]
  rw [show lPrefix "```".data ('`' :: '`' :: '`' :: '\n' ::
    (renderVL2 st rs ++ ['\n', '`', '`', '`'])) = true from rfl]
  simp only [if_true]
  unfold stripLeadFence
  simp only [List.drop_succ_cons, List.drop_zero]
  rw [show lPrefix "json".data ('\n' ::
    (renderVL2 st rs ++ ['\n', '`', '`', '`'])) = false from rfl]
  simp only [Bool.false_eq_true, if_false]
  rw [show List.dropWhile pySpace ('\n' :: (renderVL2 st rs ++ ['\n', '`', '`', '`'])) =
    List.dropWhile pySpace (renderVL2 st rs ++ ['\n', '`', '`', '`']) from by
      simp [List.dropWhile, pySpace]]
  rw [show List.dropWhile pySpace (renderVL2 st rs ++ ['\n', '`', '`', '`']) =
    renderVL2 st rs ++ ['\n', '`', '`', '`'] from by
      simp [renderVL2, List.dropWhile, pySpace]]
  unfold stripTrailFence
  have hrev : (renderVL2 st rs ++ ['\n', '`', '`', '`']).reverse =
      '`' :: '`' :: '`' :: '\n' :: (renderVL2 st rs).reverse := by
    simp
  rw [show lEndsWith "```".data (renderVL2 st rs ++ ['\n', '`', '`', '`']) = true from by
    unfold lEndsWith
    rw [hrev]
    rfl]
  simp only [if_true, hrev, List.drop_succ_cons, List.drop_zero]
  have hrev2 : (renderVL2 st rs).reverse =
      '\x7d' :: ((('"' :: 's' :: 't' :: 'a' :: 't' :: 'u' :: 's' :: '"' :: ':' :: ' ' :: '"' ::
        (st ++ '"' :: ',' :: ' ' :: '"' :: 'r' :: 'e' :: 'a' :: 's' :: 'o' :: 'n' :: 'i' :: 'n' :: 'g'
          :: '"' :: ':' :: ' ' :: '"' :: (rs ++ ['"']))).reverse) ++ ['\x7b']) := by
    rw [show renderVL2 st rs =
      '\x7b' :: (('"' :: 's' :: 't' :: 'a' :: 't' :: 'u' :: 's' :: '"' :: ':' :: ' ' :: '"' ::
        (st ++ '"' :: ',' :: ' ' :: '"' :: 'r' :: 'e' :: 'a' :: 's' :: 'o' :: 'n' :: 'i' :: 'n' :: 'g'
          :: '"' :: ':' :: ' ' :: '"' :: (rs ++ ['"']))) ++ ['\x7d']) from rfl]
    simp
  rw [show List.dropWhile pySpace ('\n' :: (renderVL2 st rs).reverse) =
      List.dropWhile pySpace ((renderVL2 st rs).reverse) from by
    simp [List.dropWhile, pySpace]]
  rw [hrev2]
  rw [show List.dropWhile pySpace ('\x7d' :: ((('"' :: 's' :: 't' :: 'a' :: 't' :: 'u' :: 's' :: '"' :: ':' :: ' ' :: '"' ::
        (st ++ '"' :: ',' :: ' ' :: '"' :: 'r' :: 'e' :: 'a' :: 's' :: 'o' :: 'n' :: 'i' :: 'n' :: 'g'
          :: '"' :: ':' :: ' ' :: '"' :: (rs ++ ['"']))).reverse) ++ ['\x7b'])) =
      '\x7d' :: ((('"' :: 's' :: 't' :: 'a' :: 't' :: 'u' :: 's' :: '"' :: ':' :: ' ' :: '"' ::
        (st ++ '"' :: ',' :: ' ' :: '"' :: 'r' :: 'e' :: 'a' :: 's' :: 'o' :: 'n' :: 'i' :: 'n' :: 'g'
          :: '"' :: ':' :: ' ' :: '"' :: (rs ++ ['"']))).reverse) ++ ['\x7b']) from by
    simp [List.dropWhile, pySpace]]
  rw [show ('\x7d' :: ((('"' :: 's' :: 't' :: 'a' :: 't' :: 'u' :: 's' :: '"' :: ':' :: ' ' :: '"' ::
        (st ++ '"' :: ',' :: ' ' :: '"' :: 'r' :: 'e' :: 'a' :: 's' :: 'o' :: 'n' :: 'i' :: 'n' :: 'g'
          :: '"' :: ':' :: ' ' :: '"' :: (rs ++ ['"']))).reverse) ++ ['\x7b'])).reverse =
      renderVL2 st rs from by
    rw [show renderVL2 st rs =
      '\x7b' :: (('"' :: 's' :: 't' :: 'a' :: 't' :: 'u' :: 's' :: '"' :: ':' :: ' ' :: '"' ::
        (st ++ '"' :: ',' :: ' ' :: '"' :: 'r' :: 'e' :: 'a' :: 's' :: 'o' :: 'n' :: 'i' :: 'n' :: 'g'
          :: '"' :: ':' :: ' ' :: '"' :: (rs ++ ['"']))) ++ ['\x7d']) from rfl]
    simp]

theorem claim_C4_amended (st rs s : String)
    (hst : plainStr st = true) (hrs : plainStr rs = true)
    (hfail : (pyJsonLoads (fenceCleaned s)).isOk = false) :
    parse_audit_response (renderVerdict st rs) =
      .obj [("status", .str st), ("reasoning", .str rs)] ∧
    parse_audit_response ("```json\n" ++ renderVerdict st rs ++ "\n```") =
      .obj [("status", .str st), ("reasoning", .str rs)] ∧
    parse_audit_response ("```\n" ++ renderVerdict st rs ++ "\n```") =
      .obj [("status", .str st), ("reasoning", .str rs)] ∧
    parse_audit_response
        "\x7b\"status\": \"UNSAFE\", \"reasoning\": \"dose\", \"suggestion\": \"lower it\"\x7d" =
      .obj [("status", .str "UNSAFE"), ("reasoning", .str "dose"),
            ("suggestion", .str "lower it")] ∧
    parse_audit_response s =
      (if pyIn "SAFE" (pyUpper s) && !pyIn "UNSAFE" (pyUpper s) then
        .obj [("status", .str "SAFE"), ("reasoning", .str "Response appears acceptable.")]
      else
        .obj [("status", .str "UNSAFE"), ("reasoning", .str s),
              ("suggestion", .str "Review needed.")]) := by
  have hst' : st.data.all plainChar = true := hst
  have hrs' : rs.data.all plainChar = true := hrs
  refine ⟨?_, ?_, ?_, rfl, ?_⟩
  · unfold parse_audit_response
    rw [show renderVerdict st rs = ⟨renderVL2 st.data rs.data⟩ from rfl,
      fenceCleaned_render2, loads_render2 _ _ hst' hrs']
  · unfold parse_audit_response
    rw [show ("```json\n" ++ renderVerdict st rs ++ "\n```") =
        (⟨'`' :: '`' :: '`' :: 'j' :: 's' :: 'o' :: 'n' :: '\n' ::
          (renderVL2 st.data rs.data ++ ['\n', '`', '`', '`'])⟩ : String) from by
      apply String.ext
      rw [String.data_append, String.data_append,
        show ("```json\n" : String).data = ['`', '`', '`', 'j', 's', 'o', 'n', '\n'] from rfl,
        show ("\n```" : String).data = ['\n', '`', '`', '`'] from rfl,
        show (renderVerdict st rs).data = renderVL2 st.data rs.data from rfl]
      simp]
    rw [fenceCleaned_json_wrapped, loads_render2 _ _ hst' hrs']
  · unfold parse_audit_response
    rw [show ("```\n" ++ renderVerdict st rs ++ "\n```") =
        (⟨'`' :: '`' :: '`' :: '\n' ::
          (renderVL2 st.data rs.data ++ ['\n', '`', '`', '`'])⟩ : String) from by
      apply String.ext
      rw [String.data_append, String.data_append,
        show ("```\n" : String).data = ['`', '`', '`', '\n'] from rfl,
        show ("\n```" : String).data = ['\n', '`', '`', '`'] from rfl,
        show (renderVerdict st rs).data = renderVL2 st.data rs.data from rfl]
      simp]
    rw [fenceCleaned_bare_wrapped, loads_render2 _ _ hst' hrs']
  · unfold parse_audit_response
    cases hE : pyJsonLoads (fenceCleaned s) with
    | ok v => rw [hE] at hfail; simp [Except.isOk, Except.toBool] at hfail
    | error e => rfl

theorem claim_C4_counterexample :
    parse_audit_response
        "```python\n\x7b\"status\": \"SAFE\", \"reasoning\": \"x\"\x7d\n```" =
      .obj [("status", .str "SAFE"),
            ("reasoning", .str "Response appears acceptable.")] ∧
    jGet (parse_audit_response
        "```python\n\x7b\"status\": \"SAFE\", \"reasoning\": \"x\"\x7d\n```")
      "reasoning" ≠ some (.str "x") := by
  have h : parse_audit_response
      "```python\n\x7b\"status\": \"SAFE\", \"reasoning\": \"x\"\x7d\n```" =
      .obj [("status", .str "SAFE"),
            ("reasoning", .str "Response appears acceptable.")] := rfl
  refine ⟨h, ?_⟩
  rw [h]
  simp [jGet, dictGet]

theorem claim_C4_amended_witness :
    plainStr "SAFE" = true ∧ plainStr "Dosage is fine." = true ∧
    (pyJsonLoads (fenceCleaned "free-form reviewer prose")).isOk = false ∧
    (parse_audit_response (renderVerdict "SAFE" "Dosage is fine.") =
      .obj [("status", .str "SAFE"), ("reasoning", .str "Dosage is fine.")] ∧
    parse_audit_response ("```json\n" ++ renderVerdict "SAFE" "Dosage is fine." ++ "\n```") =
      .obj [("status", .str "SAFE"), ("reasoning", .str "Dosage is fine.")] ∧
    parse_audit_response ("```\n" ++ renderVerdict "SAFE" "Dosage is fine." ++ "\n```") =
      .obj [("status", .str "SAFE"), ("reasoning", .str "Dosage is fine.")] ∧
    parse_audit_response
        "\x7b\"status\": \"UNSAFE\", \"reasoning\": \"dose\", \"suggestion\": \"lower it\"\x7d" =
      .obj [("status", .str "UNSAFE"), ("reasoning", .str "dose"),
            ("suggestion", .str "lower it")] ∧
    parse_audit_response "free-form reviewer prose" =
      (if pyIn "SAFE" (pyUpper "free-form reviewer prose") &&
          !pyIn "UNSAFE" (pyUpper "free-form reviewer prose") then
        .obj [("status", .str "SAFE"), ("reasoning", .str "Response appears acceptable.")]
      else
        .obj [("status", .str "UNSAFE"), ("reasoning", .str "free-form reviewer prose"),
              ("suggestion", .str "Review needed.")])) :=
  ⟨by decide, by decide, by decide,
   claim_C4_amended "SAFE" "Dosage is fine." "free-form reviewer prose"
     (by decide) (by decide) (by decide)⟩

theorem claim_C7_amended (s : String) :
    ((pyJsonLoads (fenceCleaned s)).isOk = true →
        parse_audit_response s = ((pyJsonLoads (fenceCleaned s)).toOption).getD .null) ∧
    ((pyJsonLoads (fenceCleaned s)).isOk = false →
        (parse_audit_response s).isObj = true ∧
        (jGet (parse_audit_response s) "status").isSome = true ∧
        (jGet (parse_audit_response s) "reasoning").isSome = true) := by
  unfold parse_audit_response
  cases hE : pyJsonLoads (fenceCleaned s) with
  | ok v => simp [Except.isOk, Except.toBool, Except.toOption]
  | error e =>
      constructor
      · intro hk
        simp [Except.isOk, Except.toBool] at hk
      · intro _
        by_cases hc : (pyIn "SAFE" (pyUpper s) && !pyIn "UNSAFE" (pyUpper s)) = true <;>
          simp [hc, Json.isObj, jGet, dictGet]

theorem claim_C7_counterexample :
    parse_audit_response "42" = Json.num "42" ∧
    (parse_audit_response "42").isObj = false ∧
    jGet (parse_audit_response "42") "status" = none :=
  ⟨rfl, rfl, rfl⟩

theorem claim_C7_amended_witness :
    ((pyJsonLoads (fenceCleaned "\x7b\"status\": \"SAFE\", \"reasoning\": \"ok\"\x7d")).isOk = true ∧
      parse_audit_response "\x7b\"status\": \"SAFE\", \"reasoning\": \"ok\"\x7d" =
        ((pyJsonLoads (fenceCleaned "\x7b\"status\": \"SAFE\", \"reasoning\": \"ok\"\x7d")).toOption).getD .null) ∧
    ((pyJsonLoads (fenceCleaned "plain prose answer")).isOk = false ∧
      (parse_audit_response "plain prose answer").isObj = true ∧
      (jGet (parse_audit_response "plain prose answer") "status").isSome = true ∧
      (jGet (parse_audit_response "plain prose answer") "reasoning").isSome = true) :=
  ⟨⟨by decide,
    (claim_C7_amended "\x7b\"status\": \"SAFE\", \"reasoning\": \"ok\"\x7d").1 (by decide)⟩,
   ⟨by decide, (claim_C7_amended "plain prose answer").2 (by decide)⟩⟩

/-! ## History-window and role-label theorems (claims C9, C10) -/

theorem pyLastSlice_suffix (n : Nat) (l : List α) : pyLastSlice n l <:+ l :=
  List.drop_suffix _ _

theorem pyLastSlice_length (n : Nat) (l : List α) :
    (pyLastSlice n l).length = min n l.length := by
  simp [pyLastSlice]
  omega

/-- Claim C9 (amended): the draft prompt renders exactly the last 6 history
turns, the corrector context and the router keyword blob exactly the last 4;
the two windows are genuine trailing windows (suffixes of the right length),
and the corrector window is NOT the draft window once the history exceeds 4
turns (the original claim called them the same window). -/
theorem claim_C9_amended (q : String) (h : List Turn) (hne : h ≠ []) :
    draftPrompt q h =
      "Previous conversation:\n" ++ pyJoin "\n" ((pyLastSlice 6 h).map turnLine)
        ++ "\n\nPatient: " ++ q ∧
    correctionContext h =
      "Previous conversation:\n" ++ pyJoin "\n" ((pyLastSlice 4 h).map turnLine)
        ++ "\n\n" ∧
    routerBlob q h =
      (pyLastSlice 4 h).foldl
        (fun full_text msg => full_text ++ " " ++ pyLower msg.content)
        (pyLower q) ∧
    pyLastSlice 6 h <:+ h ∧ (pyLastSlice 6 h).length = min 6 h.length ∧
    pyLastSlice 4 h <:+ h ∧ (pyLastSlice 4 h).length = min 4 h.length ∧
    (4 < h.length → pyLastSlice 4 h ≠ pyLastSlice 6 h) := by
  refine ⟨?_, ?_, rfl, pyLastSlice_suffix _ _, pyLastSlice_length _ _,
    pyLastSlice_suffix _ _, pyLastSlice_length _ _, ?_⟩
  · simp [draftPrompt, hne, String.ext_iff, String.data_append]
  · simp [correctionContext, hne, String.ext_iff, String.data_append]
  · intro hlen heq
    have h4 := pyLastSlice_length 4 h
    have h6 := pyLastSlice_length 6 h
    rw [heq] at h4
    omega

/-- Claim C9, as stated, is false: on a five-turn history the draft prompt
still contains the first turn, which the corrector context (last 4 turns)
has dropped, so the corrector does not reuse "the same trailing-history
window used for drafting". -/
theorem claim_C9_counterexample :
    pyIn "turn zero marker" (draftPrompt "q" c9Hist) = true ∧
    pyIn "turn zero marker" (correctionContext c9Hist) = false ∧
    pyLastSlice 4 c9Hist ≠ pyLastSlice 6 c9Hist :=
  ⟨by decide, by decide, by decide⟩

theorem claim_C9_amended_witness :
    c9Hist ≠ [] ∧
    (draftPrompt "q" c9Hist =
      "Previous conversation:\n" ++ pyJoin "\n" ((pyLastSlice 6 c9Hist).map turnLine)
        ++ "\n\nPatient: " ++ "q" ∧
    correctionContext c9Hist =
      "Previous conversation:\n" ++ pyJoin "\n" ((pyLastSlice 4 c9Hist).map turnLine)
        ++ "\n\n" ∧
    routerBlob "q" c9Hist =
      (pyLastSlice 4 c9Hist).foldl
        (fun full_text msg => full_text ++ " " ++ pyLower msg.content)
        (pyLower "q") ∧
    pyLastSlice 6 c9Hist <:+ c9Hist ∧
    (pyLastSlice 6 c9Hist).length = min 6 c9Hist.length ∧
    pyLastSlice 4 c9Hist <:+ c9Hist ∧
    (pyLastSlice 4 c9Hist).length = min 4 c9Hist.length ∧
    (4 < c9Hist.length → pyLastSlice 4 c9Hist ≠ pyLastSlice 6 c9Hist)) :=
  ⟨by decide, claim_C9_amended "q" c9Hist (by decide)⟩

/-- Claim C10: in both the draft and correction prompt builders, a history
turn is labeled `Patient` iff its role is exactly the string `user`; any
other role, including `patient` and `assistant`, is labeled `Nurse`. -/
theorem claim_C10_role_labels (role content q : String) :
    (draftPrompt q [⟨role, content⟩] =
       "Previous conversation:\n" ++ (if role = "user" then "Patient" else "Nurse")
         ++ ": " ++ content ++ "\n\nPatient: " ++ q) ∧
    (correctionContext [⟨role, content⟩] =
       "Previous conversation:\n" ++ (if role = "user" then "Patient" else "Nurse")
         ++ ": " ++ content ++ "\n\n") ∧
    turnLine ⟨"patient", content⟩ = "Nurse: " ++ content ∧
    turnLine ⟨"assistant", content⟩ = "Nurse: " ++ content ∧
    (turnLine ⟨role, content⟩ = "Patient: " ++ content ↔ role = "user") := by
  by_cases hr : role = "user" <;>
    simp [draftPrompt, correctionContext, turnLine, pyLastSlice, pyJoin, hr,
      String.ext_iff, String.data_append]

/-! ## CorrectionPolicy feedback-block theorems (claim C8) -/

theorem feedbackLine_spec (auditor_id : String) (r : Json)
    (hr : strOrAbsent r "reasoning" = true)
    (hsg : strOrAbsent r "suggestion" = true) :
    feedbackLine auditor_id r = .ok (feedbackLineSpec auditor_id r) := by
  unfold feedbackLine feedbackLineSpec
  unfold strOrAbsent at hr hsg
  have hsugCase :
      jGet r "suggestion" = none ∨ ∃ s, jGet r "suggestion" = some (.str s) := by
    cases hx : jGet r "suggestion" with
    | none => exact Or.inl rfl
    | some v =>
        rw [hx] at hsg
        cases v
        case str s => exact Or.inr ⟨_, rfl⟩
        all_goals simp at hsg
  have hrCase :
      jGet r "reasoning" = none ∨ ∃ s, jGet r "reasoning" = some (.str s) := by
    cases hx : jGet r "reasoning" with
    | none => exact Or.inl rfl
    | some v =>
        rw [hx] at hr
        cases v
        case str s => exact Or.inr ⟨_, rfl⟩
        all_goals simp at hr
  have hreas : ∃ rs, (jGet r "reasoning").getD (Json.str "") = .str rs ∧
      (match jGet r "reasoning" with | some (.str s) => s | _ => "") = rs := by
    rcases hrCase with hx | ⟨s, hx⟩
    · exact ⟨"", by simp [hx]⟩
    · exact ⟨s, by simp [hx]⟩
  rcases hreas with ⟨rs, hrs1, hrs2⟩
  rcases hsugCase with hx | ⟨s, hx⟩
  · by_cases hsafe : statusIsSafe r = true <;>
      simp [hx, hrs1, hrs2, jGetD, jTruthyOpt, jTruthy, hsafe, pyStr, pyStrF,
        String.ext_iff, String.data_append]
  · have hie : s.isEmpty = (s = "" : Bool) := by
      by_cases hemp : s = ""
      · subst hemp
        rfl
      · rw [decide_eq_false hemp]
        simp only [Bool.eq_false_iff, ne_eq, String.isEmpty_iff]
        exact hemp
    by_cases hemp : s = "" <;> by_cases hsafe : statusIsSafe r = true <;>
      simp [hx, hie, hemp, hrs1, hrs2, jGetD, jTruthyOpt, jTruthy, hsafe, pyStr, pyStrF,
        String.ext_iff, String.data_append,
        (show ("" : String).isEmpty = true from rfl)]

theorem feedback_mapM_spec (items : List (String × Json))
    (hs : items.all (fun p => strOrAbsent p.2 "reasoning" &&
            strOrAbsent p.2 "suggestion") = true) :
    items.mapM (fun p => feedbackLine p.1 p.2) =
      .ok (items.map (fun p => feedbackLineSpec p.1 p.2)) := by
  induction items with
  | nil => rfl
  | cons p rest ih =>
      simp only [List.all_cons, Bool.and_eq_true] at hs
      obtain ⟨⟨h1, h2⟩, hrest⟩ := hs
      have hline := feedbackLine_spec p.1 p.2 h1 h2
      rw [List.mapM_cons, hline, ih hrest]
      rfl

theorem claim_C8_amended (items : List (String × Json))
    (hs : items.all (fun p => strOrAbsent p.2 "reasoning" &&
            strOrAbsent p.2 "suggestion") = true) :
    feedbackSectionE items =
      .ok (pyJoin "\n" (items.map (fun p => feedbackLineSpec p.1 p.2))) := by
  unfold feedbackSectionE
  rw [feedback_mapM_spec items hs]
  rfl

theorem claim_C8_counterexample :
    feedbackSectionE
        [("medical", .obj [("status", .str "SAFE"), ("reasoning", .str "ok"),
                           ("suggestion", .str "more")])] =
      .ok "MEDICAL AUDITOR: (Approved but with suggestion) ok Suggestion: more" ∧
    feedbackSectionE
        [("medical", .obj [("status", .str "SAFE"), ("reasoning", .str "ok"),
                           ("suggestion", .str "more")])] ≠
      .ok "(Approved but with suggestion) MEDICAL AUDITOR: ok Suggestion: more" := by
  have h : feedbackSectionE
      [("medical", .obj [("status", .str "SAFE"), ("reasoning", .str "ok"),
                         ("suggestion", .str "more")])] =
      .ok "MEDICAL AUDITOR: (Approved but with suggestion) ok Suggestion: more" := by
    rfl
  refine ⟨h, ?_⟩
  rw [h]
  simp

theorem claim_C8_amended_witness :
    ([("medical", Json.obj [("status", .str "SAFE"), ("reasoning", .str "ok"),
                            ("suggestion", .str "more")]),
      ("legal", Json.obj [("status", .str "UNSAFE"), ("reasoning", .str "risky")])].all
        (fun p => strOrAbsent p.2 "reasoning" && strOrAbsent p.2 "suggestion") = true) ∧
    feedbackSectionE
        [("medical", Json.obj [("status", .str "SAFE"), ("reasoning", .str "ok"),
                               ("suggestion", .str "more")]),
         ("legal", Json.obj [("status", .str "UNSAFE"), ("reasoning", .str "risky")])] =
      .ok (pyJoin "\n"
        ([("medical", Json.obj [("status", .str "SAFE"), ("reasoning", .str "ok"),
                                ("suggestion", .str "more")]),
          ("legal", Json.obj [("status", .str "UNSAFE"), ("reasoning", .str "risky")])].map
          (fun p => feedbackLineSpec p.1 p.2))) :=
  ⟨by decide, claim_C8_amended _ (by decide)⟩

theorem run_auditor_run (gen : Gen) (a d q : String) (t : Trace) :
    run_auditor gen a d q t =
      (auditEx gen d q a, { t with calls := t.calls ++ [auditCallOf a d q] }) := by
  unfold run_auditor auditEx call_gemini_async auditCallOf raiseM
  cases h1 : jSet (parse_audit_response (gen (auditPrompt a d q) none))
      "auditor_id" (.str a) with
  | none => simp [instMonadM, h1]
  | some r1 =>
      cases h2 : jSet r1 "auditor_name" (.str (cfgName a)) with
      | none => simp [instMonadM, h1, h2]
      | some r2 => simp [instMonadM, h1, h2, pure]

theorem stage1Loop_val (gen : Gen) (d q : String) (ids : List String)
    (acc : List (String × Json)) (t : Trace) :
    (stage1Loop gen d q ids acc t).1 =
      (auditsEx gen d q ids).map (fun vs => foldSet acc vs) := by
  induction ids generalizing acc t with
  | nil => rfl
  | cons a rest ih =>
      unfold stage1Loop auditsEx
      simp only [instMonadM, bind]
      rw [run_auditor_run]
      cases hv : auditEx gen d q a with
      | error e => simp [Except.map]
      | ok v =>
          simp only []
          rw [ih]
          cases hrest : auditsEx gen d q rest with
          | error e => simp [Except.map]
          | ok vs => simp [Except.map, foldSet]

theorem stage1Loop_trace_ok (gen : Gen) (d q : String) (ids : List String)
    (acc : List (String × Json)) (t : Trace) (vs : List (String × Json))
    (hok : auditsEx gen d q ids = .ok vs) :
    (stage1Loop gen d q ids acc t).2 =
      { t with calls := t.calls ++ ids.map (fun a => auditCallOf a d q) } := by
  induction ids generalizing acc t vs with
  | nil => simp [stage1Loop, pure, instMonadM]
  | cons a rest ih =>
      unfold stage1Loop
      simp only [instMonadM, bind]
      rw [run_auditor_run]
      unfold auditsEx at hok
      cases hv : auditEx gen d q a with
      | error e => rw [hv] at hok; simp at hok
      | ok v =>
          rw [hv] at hok
          cases hrest : auditsEx gen d q rest with
          | error e => rw [hrest] at hok; simp at hok
          | ok vs' =>
              simp only []
              rw [ih _ _ _ hrest]
              simp

theorem gatherAuditors_val (gen : Gen) (d q : String) (ids : List String)
    (t : Trace) :
    (gatherAuditors gen d q ids t).1 = gatherEx gen d q ids := by
  induction ids generalizing t with
  | nil => rfl
  | cons a rest ih =>
      unfold gatherAuditors gatherEx
      simp only [instMonadM, bind]
      rw [run_auditor_run]
      cases hv : auditEx gen d q a with
      | error e => simp
      | ok v =>
          simp only []
          cases hg : (gatherAuditors gen d q rest
              { calls := t.calls ++ [auditCallOf a d q], events := t.events }) with
          | mk val tr =>
              have hthis := ih { calls := t.calls ++ [auditCallOf a d q], events := t.events }
              rw [hg] at hthis
              simp at hthis
              rw [← hthis]
              cases val with
              | error e => simp
              | ok rs => simp [pure]

theorem gatherAuditors_trace_ok (gen : Gen) (d q : String) (ids : List String)
    (t : Trace) (vs : List Json)
    (hok : gatherEx gen d q ids = .ok vs) :
    (gatherAuditors gen d q ids t).2 =
      { t with calls := t.calls ++ ids.map (fun a => auditCallOf a d q) } := by
  induction ids generalizing t vs with
  | nil => simp [gatherAuditors, pure, instMonadM]
  | cons a rest ih =>
      unfold gatherAuditors
      simp only [instMonadM, bind]
      rw [run_auditor_run]
      unfold gatherEx at hok
      cases hv : auditEx gen d q a with
      | error e => rw [hv] at hok; simp at hok
      | ok v =>
          rw [hv] at hok
          cases hrest : gatherEx gen d q rest with
          | error e => rw [hrest] at hok; simp at hok
          | ok vs' =>
              simp only []
              cases hg : (gatherAuditors gen d q rest
                  { calls := t.calls ++ [auditCallOf a d q], events := t.events }) with
              | mk val tr =>
                  have hval := gatherAuditors_val gen d q rest
                    { calls := t.calls ++ [auditCallOf a d q], events := t.events }
                  rw [hg, hrest] at hval
                  have htr := ih { calls := t.calls ++ [auditCallOf a d q], events := t.events } vs' hrest
                  rw [hg] at htr
                  simp at hval htr
                  rw [hval]
                  simp [htr, pure]

theorem auditsEx_eq_gatherEx (gen : Gen) (d q : String) (ids : List String) :
    auditsEx gen d q ids = (gatherEx gen d q ids).map (fun vs => ids.zip vs) := by
  induction ids with
  | nil => rfl
  | cons a rest ih =>
      unfold auditsEx gatherEx
      cases hv : auditEx gen d q a with
      | error e => simp [Except.map]
      | ok v =>
          rw [ih]
          cases hrest : gatherEx gen d q rest with
          | error e => simp [Except.map]
          | ok vs => simp [Except.map, List.zip]

theorem emitStarted_run (ids : List String) (t : Trace) :
    emitStarted ids t =
      (.ok (), { t with events := t.events ++ ids.map (fun a => .check_started a) }) := by
  induction ids generalizing t with
  | nil => simp [emitStarted, pure, instMonadM]
  | cons a rest ih =>
      unfold emitStarted
      simp only [instMonadM, bind, emit]
      rw [ih]
      simp

theorem streamCompleteLoop_run (acc : List (String × Json))
    (pairs : List (String × Json)) (t : Trace) :
    streamCompleteLoop acc pairs t =
      (.ok (foldSet acc pairs),
       { t with events := t.events ++
           pairs.map (fun p => .check_complete p.1 p.2 (statusIsSafe p.2)) }) := by
  induction pairs generalizing acc t with
  | nil => simp [streamCompleteLoop, pure, instMonadM, foldSet]
  | cons p rest ih =>
      unfold streamCompleteLoop
      simp only [instMonadM, bind, emit]
      rw [ih]
      simp [foldSet]

theorem streamStage1Loop_val (gen : Gen) (d q : String) (ids : List String)
    (acc : List (String × Json)) (t : Trace) :
    (streamStage1Loop gen d q ids acc t).1 =
      (auditsEx gen d q ids).map (fun vs => foldSet acc vs) := by
  induction ids generalizing acc t with
  | nil => rfl
  | cons a rest ih =>
      unfold streamStage1Loop auditsEx
      simp only [instMonadM, bind, emit]
      rw [run_auditor_run]
      cases hv : auditEx gen d q a with
      | error e => simp [Except.map]
      | ok v =>
          simp only []
          rw [ih]
          cases hrest : auditsEx gen d q rest with
          | error e => simp [Except.map]
          | ok vs => simp [Except.map, foldSet]

theorem streamStage1Loop_trace_ok (gen : Gen) (d q : String) (ids : List String)
    (acc : List (String × Json)) (t : Trace) (vs : List (String × Json))
    (hok : auditsEx gen d q ids = .ok vs) :
    (streamStage1Loop gen d q ids acc t).2 =
      { t with
        calls := t.calls ++ ids.map (fun a => auditCallOf a d q),
        events := t.events ++
          vs.flatMap (fun p =>
            [.check_started p.1, .check_complete p.1 p.2 (statusIsSafe p.2)]) } := by
  induction ids generalizing acc t vs with
  | nil =>
      unfold auditsEx at hok
      simp at hok
      subst hok
      simp [streamStage1Loop, pure, instMonadM]
  | cons a rest ih =>
      unfold streamStage1Loop
      simp only [instMonadM, bind, emit]
      rw [run_auditor_run]
      unfold auditsEx at hok
      cases hv : auditEx gen d q a with
      | error e => rw [hv] at hok; simp at hok
      | ok v =>
          rw [hv] at hok
          cases hrest : auditsEx gen d q rest with
          | error e => rw [hrest] at hok; simp at hok
          | ok vs' =>
              rw [hrest] at hok
              simp at hok
              subst hok
              simp only []
              rw [ih _ _ _ hrest]
              simp

theorem get_nurse_draft_run (gen : Gen) (q : String) (h : List Turn) (t : Trace) :
    get_nurse_draft gen q h t =
      (.ok (gen (draftPrompt q h) (some PRIMARY_NURSE_PROMPT)),
       { t with calls := t.calls ++ [draftCallOf q h] }) := rfl

theorem get_corrected_response_run (gen : Gen) (d : String)
    (items : List (String × Json)) (q : String) (h : List Turn) (t : Trace) :
    get_corrected_response gen d items q h t =
      match feedbackSectionE items with
      | .error e => (.error e, t)
      | .ok fb =>
          (.ok (gen (corrPrompt d fb q h) (some PRIMARY_NURSE_PROMPT)),
           { t with calls := t.calls ++ [corrCallOf d fb q h] }) := by
  unfold get_corrected_response corrPrompt corrCallOf call_gemini_async raiseM
  cases hf : feedbackSectionE items with
  | error e => simp [instMonadM]
  | ok fb => simp [instMonadM, corrPrompt]

theorem M_bind_run (x : M α) (f : α → M β) (t : Trace) :
    (x >>= f) t =
      match x t with
      | (.ok a, t') => f a t'
      | (.error e, t') => (.error e, t') := rfl

theorem M_pure_run (a : α) (t : Trace) : (pure a : M α) t = (.ok a, t) := rfl

theorem zipAssign_eq (acc : List (String × Json)) (ids : List String)
    (vs : List Json) : zipAssign acc ids vs = foldSet acc (ids.zip vs) := rfl

theorem concurrentStageRun_val (gen : Gen) (d q : String) (S : List String)
    (acc : List (String × Json)) (t : Trace) :
    (concurrentStageRun gen d q S acc t).1 =
      (auditsEx gen d q S).map (fun vs => foldSet acc vs) := by
  unfold concurrentStageRun
  by_cases hSe : S.isEmpty
  · have : S = [] := List.isEmpty_iff.mp hSe
    subst this
    simp [M_pure_run, auditsEx, Except.map, foldSet, pure, instMonadM]
  · simp only [hSe, Bool.not_false, if_pos]
    rw [M_bind_run]
    cases hg : gatherAuditors gen d q S t with
    | mk v tr =>
        have hv := gatherAuditors_val gen d q S t
        rw [hg] at hv
        simp only [] at hv
        subst hv
        rw [auditsEx_eq_gatherEx]
        cases hge : gatherEx gen d q S with
        | error e => simp [Except.map]
        | ok vs => simp [Except.map, M_pure_run, zipAssign_eq]

theorem concurrentStageRun_trace_ok (gen : Gen) (d q : String) (S : List String)
    (acc : List (String × Json)) (t : Trace) (vs : List (String × Json))
    (hok : auditsEx gen d q S = .ok vs) :
    (concurrentStageRun gen d q S acc t).2 =
      { t with calls := t.calls ++ S.map (fun a => auditCallOf a d q) } := by
  unfold concurrentStageRun
  by_cases hSe : S.isEmpty
  · have : S = [] := List.isEmpty_iff.mp hSe
    subst this
    simp [M_pure_run, pure, instMonadM]
  · simp only [hSe, Bool.not_false, if_pos]
    rw [M_bind_run]
    rw [auditsEx_eq_gatherEx] at hok
    cases hge : gatherEx gen d q S with
    | error e => rw [hge] at hok; simp [Except.map] at hok
    | ok rs =>
        cases hg : gatherAuditors gen d q S t with
        | mk v tr =>
            have hv := gatherAuditors_val gen d q S t
            have htr := gatherAuditors_trace_ok gen d q S t rs hge
            rw [hg] at hv htr
            simp only [] at hv htr
            subst hv
            subst htr
            rw [hge]
            simp [M_pure_run]

theorem constellationDecide_val (gen : Gen) (d : String)
    (items : List (String × Json)) (q : String) (h : List Turn) (t : Trace) :
    (constellationDecide gen d items q h t).1 = decideEx gen d items q h := by
  unfold constellationDecide decideEx
  by_cases hsafe : items.all (fun p => statusIsSafe p.2) <;> simp only [hsafe]
  · simp [M_pure_run, pure, instMonadM]
  · simp only [Bool.false_eq_true, if_false]
    rw [M_bind_run, get_corrected_response_run]
    cases hf : feedbackSectionE items with
    | error e => simp
    | ok fb => simp [M_pure_run]

theorem constellationDecide_trace_ok (gen : Gen) (d : String)
    (items : List (String × Json)) (q : String) (h : List Turn) (t : Trace)
    (v : String × Bool) (hok : decideEx gen d items q h = .ok v) :
    (constellationDecide gen d items q h t).2 =
      { t with calls := t.calls ++ decideCalls gen d items q h } := by
  unfold constellationDecide decideCalls
  unfold decideEx at hok
  by_cases hsafe : items.all (fun p => statusIsSafe p.2) <;> simp only [hsafe] at hok ⊢
  · simp [M_pure_run, pure, instMonadM]
  · simp only [Bool.false_eq_true, if_false] at hok ⊢
    rw [M_bind_run, get_corrected_response_run]
    cases hf : feedbackSectionE items with
    | error e => rw [hf] at hok; simp at hok
    | ok fb => simp [M_pure_run]

theorem streamConcurrentStage_val (gen : Gen) (d q : String) (S : List String)
    (acc : List (String × Json)) (t : Trace) :
    (streamConcurrentStage gen d q S acc t).1 =
      (auditsEx gen d q S).map (fun vs => foldSet acc vs) := by
  unfold streamConcurrentStage
  by_cases hSe : S.isEmpty
  · have : S = [] := List.isEmpty_iff.mp hSe
    subst this
    simp [M_pure_run, auditsEx, Except.map, foldSet, pure, instMonadM]
  · simp only [hSe, Bool.not_false, if_pos]
    rw [M_bind_run, emitStarted_run]
    simp only []
    rw [M_bind_run]
    cases hg : gatherAuditors gen d q S
        { t with events := t.events ++ S.map (fun a => .check_started a) } with
    | mk v tr =>
        have hv := gatherAuditors_val gen d q S
          { t with events := t.events ++ S.map (fun a => .check_started a) }
        rw [hg] at hv
        simp only [] at hv
        subst hv
        rw [auditsEx_eq_gatherEx]
        cases hge : gatherEx gen d q S with
        | error e => simp [Except.map]
        | ok vs => simp [Except.map, streamCompleteLoop_run]

theorem streamConcurrentStage_trace_ok (gen : Gen) (d q : String)
    (S : List String) (acc : List (String × Json)) (t : Trace)
    (vs : List (String × Json)) (hok : auditsEx gen d q S = .ok vs) :
    (streamConcurrentStage gen d q S acc t).2 =
      { t with
        calls := t.calls ++ S.map (fun a => auditCallOf a d q),
        events := t.events ++ S.map (fun a => .check_started a) ++
          vs.map (fun p => .check_complete p.1 p.2 (statusIsSafe p.2)) } := by
  unfold streamConcurrentStage
  by_cases hSe : S.isEmpty
  · have : S = [] := List.isEmpty_iff.mp hSe
    subst this
    unfold auditsEx at hok
    simp at hok
    subst hok
    simp [M_pure_run, pure, instMonadM]
  · simp only [hSe, Bool.not_false, if_pos]
    rw [M_bind_run, emitStarted_run]
    simp only []
    rw [M_bind_run]
    rw [auditsEx_eq_gatherEx] at hok
    cases hge : gatherEx gen d q S with
    | error e => rw [hge] at hok; simp [Except.map] at hok
    | ok rs =>
        rw [hge] at hok
        simp [Except.map] at hok
        cases hg : gatherAuditors gen d q S
            { t with events := t.events ++ S.map (fun a => .check_started a) } with
        | mk v tr =>
            have hv := gatherAuditors_val gen d q S
              { t with events := t.events ++ S.map (fun a => .check_started a) }
            have htr := gatherAuditors_trace_ok gen d q S
              { t with events := t.events ++ S.map (fun a => .check_started a) } rs hge
            rw [hg] at hv htr
            simp only [] at hv htr
            subst hv
            subst htr
            rw [hge]
            simp [streamCompleteLoop_run, ← hok]

theorem streamDecide_val (gen : Gen) (d : String)
    (items : List (String × Json)) (q : String) (h : List Turn) (t : Trace) :
    (streamDecide gen d items q h t).1 = streamDecideEx gen d items q h := by
  unfold streamDecide streamDecideEx streamTrigger
  by_cases htr : (items.any (fun p => !statusIsSafe p.2) ||
      items.any (fun p => jTruthyOpt (jGet p.2 "suggestion"))) = true <;>
    simp only [htr]
  · simp only [if_pos]
    rw [M_bind_run]
    simp only [emit]
    rw [M_bind_run, get_corrected_response_run]
    cases hf : feedbackSectionE items with
    | error e => simp
    | ok fb => simp [M_pure_run, emit, instMonadM, bind, pure]
  · simp only [Bool.not_eq_true] at htr
    simp [htr, M_pure_run, pure, instMonadM]

theorem streamDecide_trace_ok (gen : Gen) (d : String)
    (items : List (String × Json)) (q : String) (h : List Turn) (t : Trace)
    (v : String × Bool) (hok : streamDecideEx gen d items q h = .ok v) :
    (streamDecide gen d items q h t).2 =
      (if streamTrigger items then
        { t with
          calls := t.calls ++ streamDecideCalls gen d items q h,
          events := t.events ++ [.correcting_started, .correcting_complete] }
      else t) := by
  unfold streamDecide
  unfold streamDecideEx at hok
  unfold streamDecideCalls
  unfold streamTrigger at hok ⊢
  by_cases htr : (items.any (fun p => !statusIsSafe p.2) ||
      items.any (fun p => jTruthyOpt (jGet p.2 "suggestion"))) = true <;>
    simp only [htr] at hok ⊢
  · simp only [if_pos]
    rw [M_bind_run]
    simp only [emit]
    rw [M_bind_run, get_corrected_response_run]
    cases hf : feedbackSectionE items with
    | error e => rw [hf] at hok; simp at hok
    | ok fb =>
        simp [M_pure_run, emit, instMonadM, bind, pure]
  · simp only [Bool.not_eq_true] at htr
    simp [htr, M_pure_run, pure, instMonadM]

theorem run_constellation_run (gen : Gen) (q : String) (h : List Turn) (t : Trace) :
    (run_constellation gen q h t).1 = blockDen gen q h ∧
    (∀ r, blockDen gen q h = .ok r →
        (run_constellation gen q h t).2 =
          { t with calls := t.calls ++ blockCalls gen q h }) := by
  unfold run_constellation blockDen blockCalls allAuditsEx
  rw [M_bind_run, get_nurse_draft_run]
  simp only []
  rw [show draftVal gen q h = gen (draftPrompt q h) (some PRIMARY_NURSE_PROMPT) from rfl]
  set d := gen (draftPrompt q h) (some PRIMARY_NURSE_PROMPT) with hd
  rw [show stage1Of q h = (get_active_auditors q h).filter (fun a => a == "medical")
    from rfl]
  rw [show stage2Of q h = (get_active_auditors q h).filter
    (fun a => ["pediatric", "drug_interaction"].contains a) from rfl]
  rw [show stage3Of q h = (get_active_auditors q h).filter
    (fun a => ["legal", "empathy"].contains a) from rfl]
  set S1 := (get_active_auditors q h).filter (fun a => a == "medical") with hS1
  set S2 := (get_active_auditors q h).filter
    (fun a => ["pediatric", "drug_interaction"].contains a) with hS2
  set S3 := (get_active_auditors q h).filter
    (fun a => ["legal", "empathy"].contains a) with hS3
  set t0 : Trace := { t with calls := t.calls ++ [draftCallOf q h] } with ht0
  rw [M_bind_run]
  cases hr1 : stage1Loop gen d q S1 [] t0 with
  | mk v1 t1 =>
      have hv1 := stage1Loop_val gen d q S1 [] t0
      rw [hr1] at hv1
      simp only [] at hv1
      cases hse1 : auditsEx gen d q S1 with
      | error e =>
          rw [hse1] at hv1
          simp [Except.map] at hv1
          subst hv1
          simp [hse1]
      | ok s1 =>
          rw [hse1] at hv1
          simp [Except.map] at hv1
          subst hv1
          have ht1 := stage1Loop_trace_ok gen d q S1 [] t0 s1 hse1
          rw [hr1] at ht1
          simp only [] at ht1
          subst ht1
          simp only [hse1]
          rw [M_bind_run]
          set t1' : Trace :=
            { t0 with calls := t0.calls ++ S1.map (fun a => auditCallOf a d q) } with ht1'
          cases hr2 : concurrentStageRun gen d q S2 (foldSet [] s1) t1' with
          | mk v2 t2 =>
              have hv2 := concurrentStageRun_val gen d q S2 (foldSet [] s1) t1'
              rw [hr2] at hv2
              simp only [] at hv2
              cases hse2 : auditsEx gen d q S2 with
              | error e =>
                  rw [hse2] at hv2
                  simp [Except.map] at hv2
                  subst hv2
                  simp [hse2]
              | ok s2 =>
                  rw [hse2] at hv2
                  simp [Except.map] at hv2
                  subst hv2
                  have ht2 := concurrentStageRun_trace_ok gen d q S2 (foldSet [] s1) t1' s2 hse2
                  rw [hr2] at ht2
                  simp only [] at ht2
                  subst ht2
                  simp only [hse2]
                  rw [M_bind_run]
                  set t2' : Trace :=
                    { t1' with calls := t1'.calls ++ S2.map (fun a => auditCallOf a d q) } with ht2'
                  cases hr3 : concurrentStageRun gen d q S3 (foldSet (foldSet [] s1) s2) t2' with
                  | mk v3 t3 =>
                      have hv3 := concurrentStageRun_val gen d q S3 (foldSet (foldSet [] s1) s2) t2'
                      rw [hr3] at hv3
                      simp only [] at hv3
                      cases hse3 : auditsEx gen d q S3 with
                      | error e =>
                          rw [hse3] at hv3
                          simp [Except.map] at hv3
                          subst hv3
                          simp [hse3]
                      | ok s3 =>
                          rw [hse3] at hv3
                          simp [Except.map] at hv3
                          subst hv3
                          have ht3 := concurrentStageRun_trace_ok gen d q S3
                            (foldSet (foldSet [] s1) s2) t2' s3 hse3
                          rw [hr3] at ht3
                          simp only [] at ht3
                          subst ht3
                          simp only [hse3]
                          rw [M_bind_run]
                          set items := foldSet (foldSet (foldSet [] s1) s2) s3 with hitems
                          set t3' : Trace :=
                            { t2' with calls := t2'.calls ++ S3.map (fun a => auditCallOf a d q) } with ht3'
                          cases hrd : constellationDecide gen d items q h t3' with
                          | mk vd td =>
                              have hvd := constellationDecide_val gen d items q h t3'
                              rw [hrd] at hvd
                              simp only [] at hvd
                              cases hde : decideEx gen d items q h with
                              | error e =>
                                  rw [hde] at hvd
                                  subst hvd
                                  simp [hde]
                              | ok fw =>
                                  rw [hde] at hvd
                                  subst hvd
                                  have htd := constellationDecide_trace_ok gen d items q h t3' fw hde
                                  rw [hrd] at htd
                                  simp only [] at htd
                                  subst htd
                                  simp only [hde, M_pure_run]
                                  refine ⟨trivial, fun r _ => ?_⟩
                                  simp [ht0, ht1', ht2', ht3']

theorem emit_run (e : Event) (t : Trace) :
    emit e t = (.ok (), { t with events := t.events ++ [e] }) := rfl

theorem chat_stream_run (gen : Gen) (q : String) (h : List Turn) (t : Trace) :
    (chat_stream gen q h t).1 = streamDen gen q h ∧
    (∀ r, streamDen gen q h = .ok r →
        (chat_stream gen q h t).2 =
          { calls := t.calls ++ streamCalls gen q h,
            events := t.events ++ streamEvents gen q h }) := by
  unfold chat_stream streamDen streamCalls streamEvents allAuditsEx
  rw [M_bind_run, emit_run]
  simp only []
  rw [M_bind_run, get_nurse_draft_run]
  simp only []
  rw [M_bind_run, emit_run]
  simp only []
  rw [M_bind_run, emit_run]
  simp only []
  rw [show draftVal gen q h = gen (draftPrompt q h) (some PRIMARY_NURSE_PROMPT) from rfl]
  set d := gen (draftPrompt q h) (some PRIMARY_NURSE_PROMPT) with hd
  rw [show stage1Of q h = (get_active_auditors q h).filter (fun a => a == "medical")
    from rfl]
  rw [show stage2Of q h = (get_active_auditors q h).filter
    (fun a => ["pediatric", "drug_interaction"].contains a) from rfl]
  rw [show stage3Of q h = (get_active_auditors q h).filter
    (fun a => ["legal", "empathy"].contains a) from rfl]
  set S1 := (get_active_auditors q h).filter (fun a => a == "medical") with hS1
  set S2 := (get_active_auditors q h).filter
    (fun a => ["pediatric", "drug_interaction"].contains a) with hS2
  set S3 := (get_active_auditors q h).filter
    (fun a => ["legal", "empathy"].contains a) with hS3
  set t0 : Trace :=
    { calls := t.calls ++ [draftCallOf q h],
      events := t.events ++ [Event.drafting_started] ++ [Event.drafting_complete d]
        ++ [Event.auditing_started (get_active_auditors q h)] } with ht0
  rw [M_bind_run]
  cases hr1 : streamStage1Loop gen d q S1 [] t0 with
  | mk v1 t1 =>
      have hv1 := streamStage1Loop_val gen d q S1 [] t0
      rw [hr1] at hv1
      simp only [] at hv1
      cases hse1 : auditsEx gen d q S1 with
      | error e =>
          rw [hse1] at hv1
          simp [Except.map] at hv1
          subst hv1
          simp [hse1]
      | ok s1 =>
          rw [hse1] at hv1
          simp [Except.map] at hv1
          subst hv1
          have ht1 := streamStage1Loop_trace_ok gen d q S1 [] t0 s1 hse1
          rw [hr1] at ht1
          simp only [] at ht1
          subst ht1
          simp only [hse1]
          rw [M_bind_run]
          set t1' : Trace :=
            { calls := t0.calls ++ S1.map (fun a => auditCallOf a d q),
              events := t0.events ++ s1.flatMap (fun p =>
                [Event.check_started p.1,
                 Event.check_complete p.1 p.2 (statusIsSafe p.2)]) } with ht1'
          cases hr2 : streamConcurrentStage gen d q S2 (foldSet [] s1) t1' with
          | mk v2 t2 =>
              have hv2 := streamConcurrentStage_val gen d q S2 (foldSet [] s1) t1'
              rw [hr2] at hv2
              simp only [] at hv2
              cases hse2 : auditsEx gen d q S2 with
              | error e =>
                  rw [hse2] at hv2
                  simp [Except.map] at hv2
                  subst hv2
                  simp [hse2]
              | ok s2 =>
                  rw [hse2] at hv2
                  simp [Except.map] at hv2
                  subst hv2
                  have ht2 := streamConcurrentStage_trace_ok gen d q S2 (foldSet [] s1) t1' s2 hse2
                  rw [hr2] at ht2
                  simp only [] at ht2
                  subst ht2
                  simp only [hse2]
                  rw [M_bind_run]
                  set t2' : Trace :=
                    { calls := t1'.calls ++ S2.map (fun a => auditCallOf a d q),
                      events := t1'.events ++ S2.map (fun a => Event.check_started a)
                        ++ s2.map (fun p =>
                            Event.check_complete p.1 p.2 (statusIsSafe p.2)) } with ht2'
                  cases hr3 : streamConcurrentStage gen d q S3 (foldSet (foldSet [] s1) s2) t2' with
                  | mk v3 t3 =>
                      have hv3 := streamConcurrentStage_val gen d q S3 (foldSet (foldSet [] s1) s2) t2'
                      rw [hr3] at hv3
                      simp only [] at hv3
                      cases hse3 : auditsEx gen d q S3 with
                      | error e =>
                          rw [hse3] at hv3
                          simp [Except.map] at hv3
                          subst hv3
                          simp [hse3]
                      | ok s3 =>
                          rw [hse3] at hv3
                          simp [Except.map] at hv3
                          subst hv3
                          have ht3 := streamConcurrentStage_trace_ok gen d q S3
                            (foldSet (foldSet [] s1) s2) t2' s3 hse3
                          rw [hr3] at ht3
                          simp only [] at ht3
                          subst ht3
                          simp only [hse3]
                          rw [M_bind_run]
                          set items := foldSet (foldSet (foldSet [] s1) s2) s3 with hitems
                          set t3' : Trace :=
                            { calls := t2'.calls ++ S3.map (fun a => auditCallOf a d q),
                              events := t2'.events ++ S3.map (fun a => Event.check_started a)
                                ++ s3.map (fun p =>
                                    Event.check_complete p.1 p.2 (statusIsSafe p.2)) } with ht3'
                          cases hrd : streamDecide gen d items q h t3' with
                          | mk vd td =>
                              have hvd := streamDecide_val gen d items q h t3'
                              rw [hrd] at hvd
                              simp only [] at hvd
                              cases hde : streamDecideEx gen d items q h with
                              | error e =>
                                  rw [hde] at hvd
                                  subst hvd
                                  simp [hde]
                              | ok fw =>
                                  rw [hde] at hvd
                                  subst hvd
                                  have htd := streamDecide_trace_ok gen d items q h t3' fw hde
                                  rw [hrd] at htd
                                  simp only [] at htd
                                  subst htd
                                  simp only [hde, M_pure_run, emit_run]
                                  rw [M_bind_run, emit_run]
                                  simp only []
                                  rw [M_bind_run, emit_run]
                                  simp only [M_pure_run]
                                  refine ⟨trivial, fun r _ => ?_⟩
                                  by_cases htrig : streamTrigger items = true <;>
                                    simp [htrig, streamDecideCalls, ht0, ht1', ht2', ht3']

theorem stage1Of_eq (q : String) (h : List Turn) : stage1Of q h = ["medical"] := by
  unfold stage1Of
  rw [get_active_auditors_eq]
  by_cases hp : pediatricKeywords.any (fun k => pyIn k (routerBlob q h)) = true <;>
    by_cases hd : drugInteractionKeywords.any (fun k => pyIn k (routerBlob q h)) = true <;>
      simp [hp, hd]

theorem auditsEx_fst (gen : Gen) (d q : String) (ids : List String)
    (vs : List (String × Json)) (hok : auditsEx gen d q ids = .ok vs) :
    vs.map Prod.fst = ids := by
  induction ids generalizing vs with
  | nil =>
      unfold auditsEx at hok
      simp at hok
      subst hok
      rfl
  | cons a rest ih =>
      unfold auditsEx at hok
      cases hv : auditEx gen d q a with
      | error e => rw [hv] at hok; simp at hok
      | ok v =>
          rw [hv] at hok
          cases hrest : auditsEx gen d q rest with
          | error e => rw [hrest] at hok; simp at hok
          | ok vs' =>
              rw [hrest] at hok
              simp at hok
              subst hok
              simp [ih vs' hrest]

theorem draftCallOf_not_correct (q : String) (h : List Turn) :
    (draftCallOf q h).kind.isCorrect = false := rfl

theorem corrCallOf_is_correct (d fb q : String) (h : List Turn) :
    (corrCallOf d fb q h).kind.isCorrect = true := rfl

theorem filter_correct_audits (d q : String) (S : List String) :
    (S.map (fun a => auditCallOf a d q)).filter (fun c => c.kind.isCorrect) = [] := by
  induction S with
  | nil => rfl
  | cons a rest ih =>
      rw [List.map_cons, List.filter_cons]
      simp only [show (auditCallOf a d q).kind.isCorrect = false from rfl]
      simp [ih]

theorem decideCalls_filter (gen : Gen) (d : String) (items : List (String × Json))
    (q : String) (h : List Turn) :
    (decideCalls gen d items q h).filter (fun c => c.kind.isCorrect) =
      decideCalls gen d items q h := by
  unfold decideCalls
  by_cases hs : items.all (fun p => statusIsSafe p.2) = true <;> simp only [hs]
  · simp
  · simp only [Bool.not_eq_true] at hs
    simp only [hs, Bool.false_eq_true, if_false]
    cases hf : feedbackSectionE items with
    | error e => simp
    | ok fb =>
        simp only []
        rw [List.filter_cons]
        simp [corrCallOf_is_correct]

theorem streamDecideCalls_filter (gen : Gen) (d : String)
    (items : List (String × Json)) (q : String) (h : List Turn) :
    (streamDecideCalls gen d items q h).filter (fun c => c.kind.isCorrect) =
      streamDecideCalls gen d items q h := by
  unfold streamDecideCalls
  by_cases hs : streamTrigger items = true <;> simp only [hs]
  · simp only [if_true]
    cases hf : feedbackSectionE items with
    | error e => simp
    | ok fb =>
        simp only []
        rw [List.filter_cons]
        simp [corrCallOf_is_correct]
  · simp only [Bool.not_eq_true] at hs
    simp [hs]

theorem blockCalls_filter_correct (gen : Gen) (q : String) (h : List Turn)
    (items : List (String × Json)) (hall : allAuditsEx gen q h = .ok items) :
    (blockCalls gen q h).filter (fun c => c.kind.isCorrect) =
      decideCalls gen (draftVal gen q h) items q h := by
  simp only [blockCalls]
  rw [hall]
  simp only [List.filter_cons, List.filter_append, draftCallOf_not_correct,
    Bool.false_eq_true, if_false, filter_correct_audits, List.nil_append]
  simp [decideCalls_filter]

theorem streamCalls_filter_correct (gen : Gen) (q : String) (h : List Turn)
    (items : List (String × Json)) (hall : allAuditsEx gen q h = .ok items) :
    (streamCalls gen q h).filter (fun c => c.kind.isCorrect) =
      streamDecideCalls gen (draftVal gen q h) items q h := by
  simp only [streamCalls]
  rw [hall]
  simp only [List.filter_cons, List.filter_append, draftCallOf_not_correct,
    Bool.false_eq_true, if_false, filter_correct_audits, List.nil_append]
  simp [streamDecideCalls_filter]

theorem blockDen_ok_shape (gen : Gen) (q : String) (h : List Turn)
    (hok : (blockDen gen q h).isOk = true) :
    ∃ items fw, allAuditsEx gen q h = .ok items ∧
      decideEx gen (draftVal gen q h) items q h = .ok fw ∧
      blockDen gen q h = .ok
        { draft := draftVal gen q h,
          audits := items.map (fun p => (p.1, summaryEntryBlocking p.1 p.2)),
          active_auditors := get_active_auditors q h,
          final_response := fw.1, was_corrected := fw.2 } := by
  cases hall : allAuditsEx gen q h with
  | error e =>
      exfalso
      unfold blockDen at hok
      rw [hall] at hok
      simp [Except.isOk, Except.toBool] at hok
  | ok items =>
      cases hde : decideEx gen (draftVal gen q h) items q h with
      | error e =>
          exfalso
          unfold blockDen at hok
          rw [hall] at hok
          simp only [] at hok
          rw [hde] at hok
          simp [Except.isOk, Except.toBool] at hok
      | ok fw =>
          refine ⟨items, fw, rfl, hde, ?_⟩
          unfold blockDen
          rw [hall]
          simp only []
          rw [hde]

theorem streamDen_ok_shape (gen : Gen) (q : String) (h : List Turn)
    (hok : (streamDen gen q h).isOk = true) :
    ∃ items fw, allAuditsEx gen q h = .ok items ∧
      streamDecideEx gen (draftVal gen q h) items q h = .ok fw ∧
      streamDen gen q h = .ok
        { draft := draftVal gen q h,
          audits := items.map (fun p => (p.1, summaryEntryStream p.1 p.2)),
          active_auditors := get_active_auditors q h,
          final_response := fw.1, was_corrected := fw.2 } := by
  cases hall : allAuditsEx gen q h with
  | error e =>
      exfalso
      unfold streamDen at hok
      rw [hall] at hok
      simp [Except.isOk, Except.toBool] at hok
  | ok items =>
      cases hde : streamDecideEx gen (draftVal gen q h) items q h with
      | error e =>
          exfalso
          unfold streamDen at hok
          rw [hall] at hok
          simp only [] at hok
          rw [hde] at hok
          simp [Except.isOk, Except.toBool] at hok
      | ok fw =>
          refine ⟨items, fw, rfl, hde, ?_⟩
          unfold streamDen
          rw [hall]
          simp only []
          rw [hde]

theorem allAuditsEx_ok_stages (gen : Gen) (q : String) (h : List Turn)
    (items : List (String × Json)) (hok : allAuditsEx gen q h = .ok items) :
    ∃ s1 s2 s3,
      auditsEx gen (draftVal gen q h) q (stage1Of q h) = .ok s1 ∧
      auditsEx gen (draftVal gen q h) q (stage2Of q h) = .ok s2 ∧
      auditsEx gen (draftVal gen q h) q (stage3Of q h) = .ok s3 ∧
      items = foldSet (foldSet (foldSet [] s1) s2) s3 := by
  simp only [allAuditsEx] at hok
  cases h1 : auditsEx gen (draftVal gen q h) q (stage1Of q h) with
  | error e => rw [h1] at hok; simp at hok
  | ok s1 =>
      rw [h1] at hok
      simp only [] at hok
      cases h2 : auditsEx gen (draftVal gen q h) q (stage2Of q h) with
      | error e => rw [h2] at hok; simp at hok
      | ok s2 =>
          rw [h2] at hok
          simp only [] at hok
          cases h3 : auditsEx gen (draftVal gen q h) q (stage3Of q h) with
          | error e => rw [h3] at hok; simp at hok
          | ok s3 =>
              rw [h3] at hok
              simp only [] at hok
              simp at hok
              exact ⟨s1, s2, s3, rfl, rfl, rfl, hok.symm⟩

theorem any_not_of_all_false (l : List α) (p : α → Bool) (hall : l.all p = false) :
    l.any (fun a => !p a) = true := by
  induction l with
  | nil => exact absurd hall (by simp)
  | cons a rest ih =>
      rw [List.all_cons] at hall
      rw [List.any_cons]
      cases hpa : p a with
      | false => simp [hpa]
      | true =>
          rw [hpa] at hall
          simp only [Bool.true_and] at hall
          simp [ih hall]

theorem any_not_of_all_true (l : List α) (p : α → Bool) (hall : l.all p = true) :
    l.any (fun a => !p a) = false := by
  rw [List.all_eq_true] at hall
  simp only [List.any_eq_false]
  intro x hx
  simp [hall x hx]

theorem all_map_pair (items : List (String × Json)) (f : String → Json → AuditSummary)
    (p : AuditSummary → Bool) :
    (items.map (fun x => (x.1, f x.1 x.2))).all (fun x => p x.2) =
      items.all (fun x => p (f x.1 x.2)) := by
  induction items with
  | nil => rfl
  | cons a rest ih => simp [ih]

theorem any_unsafe_map_stream (items : List (String × Json)) :
    (items.map (fun x => (x.1, summaryEntryStream x.1 x.2))).any
        (fun x => !x.2.safe) =
      items.any (fun x => !statusIsSafe x.2) := by
  induction items with
  | nil => rfl
  | cons a rest ih =>
      rw [List.map_cons, List.any_cons, List.any_cons, ih]
      rfl

theorem any_sugg_map_stream (items : List (String × Json)) :
    (items.map (fun x => (x.1, summaryEntryStream x.1 x.2))).any
        (fun x => jTruthyOpt x.2.suggestion) =
      items.any (fun x => jTruthyOpt (jGet x.2 "suggestion")) := by
  induction items with
  | nil => rfl
  | cons a rest ih =>
      rw [List.map_cons, List.any_cons, List.any_cons, ih]
      rfl

theorem all_safe_map_stream (items : List (String × Json)) :
    (items.map (fun x => (x.1, summaryEntryStream x.1 x.2))).all
        (fun x => x.2.safe) =
      items.all (fun x => statusIsSafe x.2) := by
  induction items with
  | nil => rfl
  | cons a rest ih =>
      rw [List.map_cons, List.all_cons, List.all_cons, ih]
      rfl

/-- **C1** (amended). Under any fixed collaborator behavior, on every request
on which the pipeline completes without a Python exception: the blocking
endpoint triggers its correction pass iff some reviewer's verdict has a
status other than `"SAFE"` (suggestions are ignored), while the streaming
endpoint triggers its correction pass iff some verdict has a status other
than `"SAFE"` or some verdict carries a truthy suggestion; in either
endpoint, when triggered exactly one corrector call is made and
`final_response` is that call's output with `was_corrected = true`, and when
not triggered `final_response` is the draft, `was_corrected = false`, and no
corrector call is made. -/
theorem claim_C1_amended (gen : Gen) (q : String) (h : List Turn)
    (hokB : (blockDen gen q h).isOk = true)
    (hokS : (streamDen gen q h).isOk = true) :
    C1BlockBody gen q h ∧ C1StreamBody gen q h := by
  obtain ⟨items, fw, hall, hde, hb⟩ := blockDen_ok_shape gen q h hokB
  obtain ⟨itemsS, fwS, hallS, hdeS, hsd⟩ := streamDen_ok_shape gen q h hokS
  rw [hall] at hallS
  injection hallS with hx
  subst hx
  have hrB : blockResult gen q h =
      { draft := draftVal gen q h,
        audits := items.map (fun p => (p.1, summaryEntryBlocking p.1 p.2)),
        active_auditors := get_active_auditors q h,
        final_response := fw.1, was_corrected := fw.2 } := by
    unfold blockResult
    rw [hb]
    rfl
  have hrS : streamResult gen q h =
      { draft := draftVal gen q h,
        audits := items.map (fun p => (p.1, summaryEntryStream p.1 p.2)),
        active_auditors := get_active_auditors q h,
        final_response := fwS.1, was_corrected := fwS.2 } := by
    unfold streamResult
    rw [hsd]
    rfl
  have hresB : resultOf (run_constellation gen q h) = some (blockResult gen q h) := by
    unfold resultOf
    rw [(run_constellation_run gen q h Trace.empty).1, hb, hrB]
    rfl
  have hresS : resultOf (chat_stream gen q h) = some (streamResult gen q h) := by
    unfold resultOf
    rw [(chat_stream_run gen q h Trace.empty).1, hsd, hrS]
    rfl
  have hcallsB : (traceOf (run_constellation gen q h)).calls = blockCalls gen q h := by
    unfold traceOf
    rw [(run_constellation_run gen q h Trace.empty).2 _ hb]
    simp [Trace.empty]
  have hcallsS : (traceOf (chat_stream gen q h)).calls = streamCalls gen q h := by
    unfold traceOf
    rw [(chat_stream_run gen q h Trace.empty).2 _ hsd]
    simp [Trace.empty]
  have hfB : (traceOf (run_constellation gen q h)).calls.filter
      (fun c => c.kind.isCorrect) = decideCalls gen (draftVal gen q h) items q h := by
    rw [hcallsB, blockCalls_filter_correct gen q h items hall]
  have hfS : (traceOf (chat_stream gen q h)).calls.filter
      (fun c => c.kind.isCorrect) =
      streamDecideCalls gen (draftVal gen q h) items q h := by
    rw [hcallsS, streamCalls_filter_correct gen q h items hall]
  have hallB_rhs : ((blockResult gen q h).audits.all (fun p => p.2.safe)) =
      items.all (fun p => statusIsSafe p.2) := by
    rw [hrB]
    show (items.map (fun p => (p.1, summaryEntryBlocking p.1 p.2))).all
        (fun p => p.2.safe) = _
    rw [all_map_pair]
    rfl
  have hanyS_rhs : ((streamResult gen q h).audits.any (fun p => !p.2.safe) ||
      (streamResult gen q h).audits.any (fun p => jTruthyOpt p.2.suggestion)) =
      streamTrigger items := by
    rw [hrS]
    show ((items.map (fun p => (p.1, summaryEntryStream p.1 p.2))).any
          (fun p => !p.2.safe) ||
        (items.map (fun p => (p.1, summaryEntryStream p.1 p.2))).any
          (fun p => jTruthyOpt p.2.suggestion)) = _
    rw [any_unsafe_map_stream, any_sugg_map_stream]
    rfl
  constructor
  · -- the blocking endpoint
    by_cases hsafe : items.all (fun p => statusIsSafe p.2) = true
    · have hfw : fw = (draftVal gen q h, false) := by
        unfold decideEx at hde
        simp only [hsafe, if_true] at hde
        injection hde with hx
        exact hx.symm
      subst hfw
      refine ⟨hresB, ?_, ?_, ?_⟩
      · rw [hallB_rhs, hsafe, hrB]
        rfl
      · intro _
        refine ⟨by rw [hrB], ?_⟩
        unfold correctorCalls
        rw [hfB]
        simp [decideCalls, hsafe]
      · intro hcontra
        rw [hrB] at hcontra
        simp at hcontra
    · simp only [Bool.not_eq_true] at hsafe
      unfold decideEx at hde
      simp only [hsafe, Bool.false_eq_true, if_false] at hde
      cases hf : feedbackSectionE items with
      | error e => rw [hf] at hde; simp at hde
      | ok fb =>
          rw [hf] at hde
          simp only [] at hde
          injection hde with hx
          have hfw : fw =
              (gen (corrPrompt (draftVal gen q h) fb q h) (some PRIMARY_NURSE_PROMPT),
               true) := hx.symm
          subst hfw
          refine ⟨hresB, ?_, ?_, ?_⟩
          · rw [hallB_rhs, hsafe, hrB]
            rfl
          · intro hcontra
            rw [hrB] at hcontra
            simp at hcontra
          · intro _
            constructor
            · unfold correctorCalls
              rw [hfB]
              simp [decideCalls, hsafe, hf]
            · rw [hfB]
              simp only [decideCalls, hsafe, Bool.false_eq_true, if_false, hf]
              rw [hrB]
              rfl
  · -- the streaming endpoint
    by_cases htrig : streamTrigger items = true
    · unfold streamDecideEx at hdeS
      simp only [htrig, if_true] at hdeS
      cases hf : feedbackSectionE items with
      | error e => rw [hf] at hdeS; simp at hdeS
      | ok fb =>
          rw [hf] at hdeS
          simp only [] at hdeS
          injection hdeS with hx
          have hfw : fwS =
              (gen (corrPrompt (draftVal gen q h) fb q h) (some PRIMARY_NURSE_PROMPT),
               true) := hx.symm
          subst hfw
          refine ⟨hresS, ?_, ?_, ?_⟩
          · rw [hanyS_rhs, htrig, hrS]
          · intro hcontra
            rw [hrS] at hcontra
            simp at hcontra
          · intro _
            constructor
            · unfold correctorCalls
              rw [hfS]
              simp [streamDecideCalls, htrig, hf]
            · rw [hfS]
              simp only [streamDecideCalls, htrig, if_true, hf]
              rw [hrS]
              rfl
    · simp only [Bool.not_eq_true] at htrig
      have hfw : fwS = (draftVal gen q h, false) := by
        unfold streamDecideEx at hdeS
        simp only [htrig, Bool.false_eq_true, if_false] at hdeS
        injection hdeS with hx
        exact hx.symm
      subst hfw
      refine ⟨hresS, ?_, ?_, ?_⟩
      · rw [hanyS_rhs, htrig, hrS]
      · intro _
        refine ⟨by rw [hrS], ?_⟩
        unfold correctorCalls
        rw [hfS]
        simp [streamDecideCalls, htrig]
      · intro hcontra
        rw [hrS] at hcontra
        simp at hcontra

/-- **C1** counterexample. With a collaborator that always answers a SAFE
verdict carrying the non-empty suggestion `"more"`, every reviewer's verdict
has a truthy suggestion — yet the blocking endpoint makes no corrector call
and reports `was_corrected = false`, refuting the claimed
"some non-empty suggestion" trigger. -/
theorem claim_C1_counterexample :
    (resultOf (run_constellation genSug "hi" [])).map
        (fun r => r.was_corrected) = some false ∧
    correctorCalls (traceOf (run_constellation genSug "hi" [])) = 0 ∧
    (resultOf (run_constellation genSug "hi" [])).map
        (fun r => r.audits.map (fun p => (p.1, p.2.safe))) =
      some [("medical", true), ("legal", true), ("empathy", true)] ∧
    jTruthyOpt (jGet (parse_audit_response (genSug
        (auditPrompt "medical" (genSug (draftPrompt "hi" [])
          (some PRIMARY_NURSE_PROMPT)) "hi") none)) "suggestion") = true := by
  refine ⟨by decide, by decide, by decide, by decide⟩

theorem claim_C1_amended_witness :
    ((blockDen genSug "hi" []).isOk = true ∧
     (streamDen genSug "hi" []).isOk = true) ∧
    (C1BlockBody genSug "hi" [] ∧ C1StreamBody genSug "hi" []) :=
  ⟨⟨by decide, by decide⟩, claim_C1_amended genSug "hi" [] (by decide) (by decide)⟩

theorem summary_entry_rel (items : List (String × Json)) :
    items.map (fun p => (p.1, summaryEntryBlocking p.1 p.2)) =
      (items.map (fun p => (p.1, summaryEntryStream p.1 p.2))).map
        (fun p => (p.1,
          { p.2 with suggestion := if p.2.safe then none else p.2.suggestion })) := by
  induction items with
  | nil => rfl
  | cons a rest ih =>
      rw [List.map_cons, List.map_cons, List.map_cons, ih]
      simp only [List.cons.injEq]
      refine ⟨?_, trivial⟩
      by_cases hs : statusIsSafe a.2 = true <;>
        simp [summaryEntryBlocking, summaryEntryStream, hs]

/-- **C2** (amended). The streaming call's terminal result agrees with the
blocking call's result on `draft` and `active_auditors`, and the two
per-reviewer summaries agree except that the blocking call nulls out the
`suggestion` of every SAFE verdict; but the two results are NOT equal in
general: when every verdict is SAFE the blocking call never corrects, while
the streaming call still corrects (diverging in `final_response` and
`was_corrected`) exactly when some verdict carries a truthy suggestion.
When some verdict is not SAFE, both correct and agree on `final_response`. -/
theorem claim_C2_amended (gen : Gen) (q : String) (h : List Turn)
    (hokB : (blockDen gen q h).isOk = true)
    (hokS : (streamDen gen q h).isOk = true) :
    C2Body gen q h := by
  obtain ⟨items, fw, hall, hde, hb⟩ := blockDen_ok_shape gen q h hokB
  obtain ⟨itemsS, fwS, hallS, hdeS, hsd⟩ := streamDen_ok_shape gen q h hokS
  rw [hall] at hallS
  injection hallS with hx
  subst hx
  have hrB : blockResult gen q h =
      { draft := draftVal gen q h,
        audits := items.map (fun p => (p.1, summaryEntryBlocking p.1 p.2)),
        active_auditors := get_active_auditors q h,
        final_response := fw.1, was_corrected := fw.2 } := by
    unfold blockResult
    rw [hb]
    rfl
  have hrS : streamResult gen q h =
      { draft := draftVal gen q h,
        audits := items.map (fun p => (p.1, summaryEntryStream p.1 p.2)),
        active_auditors := get_active_auditors q h,
        final_response := fwS.1, was_corrected := fwS.2 } := by
    unfold streamResult
    rw [hsd]
    rfl
  have hallS_safe : ((streamResult gen q h).audits.all (fun p => p.2.safe)) =
      items.all (fun p => statusIsSafe p.2) := by
    rw [hrS]
    show (items.map (fun p => (p.1, summaryEntryStream p.1 p.2))).all
        (fun p => p.2.safe) = _
    rw [all_safe_map_stream]
  have hanyS_sugg : ((streamResult gen q h).audits.any
      (fun p => jTruthyOpt p.2.suggestion)) =
      items.any (fun p => jTruthyOpt (jGet p.2 "suggestion")) := by
    rw [hrS]
    show (items.map (fun p => (p.1, summaryEntryStream p.1 p.2))).any
        (fun p => jTruthyOpt p.2.suggestion) = _
    rw [any_sugg_map_stream]
  refine ⟨?_, ?_, ?_, ?_, ?_⟩
  · rw [hrS, hrB]
  · rw [hrS, hrB]
  · rw [hrB, hrS]
    exact summary_entry_rel items
  · intro hfalse
    rw [hallS_safe] at hfalse
    unfold decideEx at hde
    simp only [hfalse, Bool.false_eq_true, if_false] at hde
    have htrig : streamTrigger items = true := by
      unfold streamTrigger
      rw [any_not_of_all_false _ _ hfalse]
      rfl
    unfold streamDecideEx at hdeS
    simp only [htrig, if_true] at hdeS
    cases hf : feedbackSectionE items with
    | error e => rw [hf] at hde; simp at hde
    | ok fb =>
        rw [hf] at hde hdeS
        simp only [] at hde hdeS
        injection hde with hx1
        injection hdeS with hx2
        have hfw : fw =
            (gen (corrPrompt (draftVal gen q h) fb q h) (some PRIMARY_NURSE_PROMPT),
             true) := hx1.symm
        have hfwS : fwS =
            (gen (corrPrompt (draftVal gen q h) fb q h) (some PRIMARY_NURSE_PROMPT),
             true) := hx2.symm
        subst hfw
        subst hfwS
        exact ⟨by rw [hrB], by rw [hrS], by rw [hrB, hrS]⟩
  · intro htrue
    rw [hallS_safe] at htrue
    have hfw : fw = (draftVal gen q h, false) := by
      unfold decideEx at hde
      simp only [htrue, if_true] at hde
      injection hde with hx1
      exact hx1.symm
    subst hfw
    have htr_eq : streamTrigger items =
        items.any (fun p => jTruthyOpt (jGet p.2 "suggestion")) := by
      unfold streamTrigger
      rw [any_not_of_all_true _ _ htrue]
      rfl
    by_cases htrig : streamTrigger items = true
    · unfold streamDecideEx at hdeS
      simp only [htrig, if_true] at hdeS
      cases hf : feedbackSectionE items with
      | error e => rw [hf] at hdeS; simp at hdeS
      | ok fb =>
          rw [hf] at hdeS
          simp only [] at hdeS
          injection hdeS with hx2
          have hfwS : fwS =
              (gen (corrPrompt (draftVal gen q h) fb q h) (some PRIMARY_NURSE_PROMPT),
               true) := hx2.symm
          subst hfwS
          refine ⟨by rw [hrB], by rw [hrB], ?_, ?_⟩
          · rw [hanyS_sugg, ← htr_eq, htrig, hrS]
          · intro hcontra
            rw [hrS] at hcontra
            simp at hcontra
    · simp only [Bool.not_eq_true] at htrig
      have hfwS : fwS = (draftVal gen q h, false) := by
        unfold streamDecideEx at hdeS
        simp only [htrig, Bool.false_eq_true, if_false] at hdeS
        injection hdeS with hx2
        exact hx2.symm
      subst hfwS
      refine ⟨by rw [hrB], by rw [hrB], ?_, ?_⟩
      · rw [hanyS_sugg, ← htr_eq, htrig, hrS]
      · intro _
        rw [hrS, hrB]

/-- **C2** counterexample. With a collaborator that always answers a SAFE
verdict carrying the non-empty suggestion `"more"`, the streaming call's
terminal result has `was_corrected = true` and keeps every suggestion, while
the blocking call's result has `was_corrected = false` and nulls every
suggestion — the two results are not equal. -/
theorem claim_C2_counterexample :
    (resultOf (chat_stream genSug "hi" [])).map
        (fun r => r.was_corrected) = some true ∧
    (resultOf (run_constellation genSug "hi" [])).map
        (fun r => r.was_corrected) = some false ∧
    (resultOf (chat_stream genSug "hi" [])).map
        (fun r => r.audits.map (fun p => p.2.suggestion)) =
      some [some (Json.str "more"), some (Json.str "more"), some (Json.str "more")] ∧
    (resultOf (run_constellation genSug "hi" [])).map
        (fun r => r.audits.map (fun p => p.2.suggestion)) =
      some [none, none, none] := by
  refine ⟨by decide, by decide, rfl, rfl⟩

theorem claim_C2_amended_witness :
    ((blockDen genSug "hi" []).isOk = true ∧
     (streamDen genSug "hi" []).isOk = true) ∧
    C2Body genSug "hi" [] :=
  ⟨⟨by decide, by decide⟩, claim_C2_amended genSug "hi" [] (by decide) (by decide)⟩

theorem checkProj_none_drafting_started : checkProj .drafting_started = none := rfl

theorem checkProj_none_drafting_complete (d : String) :
    checkProj (.drafting_complete d) = none := rfl

theorem checkProj_none_auditing (l : List String) :
    checkProj (.auditing_started l) = none := rfl

theorem checkProj_none_correcting_started : checkProj .correcting_started = none := rfl

theorem checkProj_none_correcting_complete : checkProj .correcting_complete = none := rfl

theorem checkProj_none_finalizing : checkProj .finalizing_started = none := rfl

theorem checkProj_none_complete (r : PipelineResult) :
    checkProj (.complete r) = none := rfl

theorem checkProj_some_started (a : String) :
    checkProj (.check_started a) = some (true, a) := rfl

theorem checkProj_some_complete (a : String) (v : Json) (b : Bool) :
    checkProj (.check_complete a v b) = some (false, a) := rfl

theorem checkProj_started_map (S : List String) :
    (S.map (fun a => Event.check_started a)).filterMap checkProj =
      S.map (fun a => ((true : Bool), a)) := by
  induction S with
  | nil => rfl
  | cons a rest ih =>
      rw [List.map_cons, List.filterMap_cons, checkProj_some_started, List.map_cons, ih]

theorem checkProj_complete_map (vs : List (String × Json)) :
    (vs.map (fun p =>
        Event.check_complete p.1 p.2 (statusIsSafe p.2))).filterMap checkProj =
      vs.map (fun p => ((false : Bool), p.1)) := by
  induction vs with
  | nil => rfl
  | cons a rest ih =>
      rw [List.map_cons, List.filterMap_cons, checkProj_some_complete, List.map_cons, ih]

theorem filterMap_comp_started (S : List String) :
    S.filterMap (checkProj ∘ fun a => Event.check_started a) =
      S.map (fun a => ((true : Bool), a)) := by
  induction S with
  | nil => rfl
  | cons a rest ih =>
      rw [List.filterMap_cons]
      simp [Function.comp, checkProj, ih]

theorem filterMap_comp_complete (vs : List (String × Json)) :
    vs.filterMap (checkProj ∘ fun p =>
        Event.check_complete p.1 p.2 (statusIsSafe p.2)) =
      vs.map (fun p => ((false : Bool), p.1)) := by
  induction vs with
  | nil => rfl
  | cons a rest ih =>
      rw [List.filterMap_cons]
      simp [Function.comp, checkProj, ih]

/-- **C5.** Under any fixed collaborator behavior, on every request on which
the streaming pipeline completes without a Python exception, the
`<id>_check` started/complete events appear stage by stage: the medical
check's started then complete event, then all of stage 2's started events
in canonical order followed by all of its complete events in the same
canonical order, then likewise for stage 3 — each stage's started events all
precede its complete events, independent of any completion order of the
underlying calls (the embedding returns gathered results in argument
order). -/
theorem claim_C5_stage_event_order (gen : Gen) (q : String) (h : List Turn)
    (hok : (streamDen gen q h).isOk = true) :
    checkEvents (traceOf (chat_stream gen q h)) =
      [((true : Bool), "medical"), ((false : Bool), "medical")] ++
        (((stage2Of q h).map (fun a => ((true : Bool), a)) ++
            (stage2Of q h).map (fun a => ((false : Bool), a))) ++
          ((stage3Of q h).map (fun a => ((true : Bool), a)) ++
            (stage3Of q h).map (fun a => ((false : Bool), a)))) := by
  obtain ⟨items, fwS, hall, hdeS, hsd⟩ := streamDen_ok_shape gen q h hok
  obtain ⟨s1, s2, s3, h1, h2, h3, hitems⟩ := allAuditsEx_ok_stages gen q h items hall
  have hev : (traceOf (chat_stream gen q h)).events = streamEvents gen q h := by
    unfold traceOf
    rw [(chat_stream_run gen q h Trace.empty).2 _ hsd]
    simp [Trace.empty]
  have hs1fst : s1.map Prod.fst = ["medical"] := by
    have hx := auditsEx_fst gen (draftVal gen q h) q (stage1Of q h) s1 h1
    rw [stage1Of_eq] at hx
    exact hx
  obtain ⟨v1, hs1⟩ : ∃ v, s1 = [("medical", v)] := by
    cases s1 with
    | nil => simp at hs1fst
    | cons p rest =>
        cases rest with
        | nil =>
            cases p with
            | mk a v =>
                simp at hs1fst
                exact ⟨v, by rw [hs1fst]⟩
        | cons p2 rest2 => simp at hs1fst
  have hs2fst : s2.map Prod.fst = stage2Of q h :=
    auditsEx_fst gen (draftVal gen q h) q (stage2Of q h) s2 h2
  have hs3fst : s3.map Prod.fst = stage3Of q h :=
    auditsEx_fst gen (draftVal gen q h) q (stage3Of q h) s3 h3
  have haux2 : s2.map (fun p => ((false : Bool), p.1)) =
      (stage2Of q h).map (fun a => ((false : Bool), a)) := by
    rw [← hs2fst, List.map_map]
    rfl
  have haux3 : s3.map (fun p => ((false : Bool), p.1)) =
      (stage3Of q h).map (fun a => ((false : Bool), a)) := by
    rw [← hs3fst, List.map_map]
    rfl
  unfold checkEvents
  rw [hev]
  simp only [streamEvents]
  rw [h1, h2, h3]
  simp only []
  rw [← hitems]
  rw [hdeS]
  simp only []
  rw [hs1]
  by_cases htrig : streamTrigger items = true <;>
    simp [htrig, List.filterMap_append, List.filterMap_cons, List.filterMap_nil,
      checkProj_none_drafting_started, checkProj_none_drafting_complete,
      checkProj_none_auditing, checkProj_none_correcting_started,
      checkProj_none_correcting_complete, checkProj_none_finalizing,
      checkProj_none_complete, checkProj_some_started, checkProj_some_complete,
      checkProj_started_map, checkProj_complete_map,
      filterMap_comp_started, filterMap_comp_complete, haux2, haux3]

theorem claim_C5_witness :
    (streamDen genSug "hi" []).isOk = true ∧
    checkEvents (traceOf (chat_stream genSug "hi" [])) =
      [((true : Bool), "medical"), ((false : Bool), "medical")] ++
        (((stage2Of "hi" []).map (fun a => ((true : Bool), a)) ++
            (stage2Of "hi" []).map (fun a => ((false : Bool), a))) ++
          ((stage3Of "hi" []).map (fun a => ((true : Bool), a)) ++
            (stage3Of "hi" []).map (fun a => ((false : Bool), a)))) :=
  ⟨by decide, claim_C5_stage_event_order genSug "hi" [] (by decide)⟩

end Polaris
